import Mathlib

/-!
# Teardown orchestration of `pkg/composer/down.go`

A shallow embedding of `Composer.Down`, `Composer.downNetwork`,
`Composer.downVolume` and `Composer.downContainers`.

* The external collaborators of the orchestrator (`c.ServiceNames`,
  `c.Containers`, `container.Info`, `c.NetworkExists`, `c.VolumeExists`,
  `c.runNerdctlCmd`) are methods whose bodies are not part of `down.go`.  They
  are taken as a parameter: a `Runtime σ` is an arbitrary family of state
  transformers over an arbitrary state type `σ`, so an answer may depend on
  everything that happened before.
* Every collaborator call is appended to a trace, which is what the theorems
  speak about.  Log lines (`logrus.Infof`, `logrus.Warn`) are not part of the
  trace.
* A Go map is an association list read with `List.lookup`.  The order in which
  a `range` loop visits the keys is not fixed by the language: it is an
  argument of `Down`, and `RangeOrder` says that it is a permutation of the
  keys.
* A Go `error` result is an `Except`; the errors built in `down.go` are kept
  apart from the errors handed back by a collaborator.
-/

set_option linter.dupNamespace false

namespace Composer

/-! ## Data model -/

/-- Error values produced by an external collaborator (a Go `error`). -/
abbrev ExtErr := String

/-- Error values that `Down` can return: an error handed back unchanged from a
collaborator, or one of the two errors built with `fmt.Errorf` in `down.go`. -/
inductive Error where
  | collaborator (err : ExtErr)
  | invalidNetworkName (shortName : String)
  | invalidVolumeName (shortName : String)
  deriving DecidableEq, Repr

/-- The `External` field of a network or volume configuration
(`net.External.External`). -/
structure External where
  External : Bool
  deriving DecidableEq, Repr

/-- A declared network: `net.Name` is the full name. -/
structure NetworkConfig where
  Name : String
  External : External
  deriving DecidableEq, Repr

/-- A declared volume: `vol.Name` is the full name. -/
structure VolumeConfig where
  Name : String
  External : External
  deriving DecidableEq, Repr

/-- The fields of `c.project` read by `down.go`.  A Go map is an association
list; `m[k]` is `List.lookup k m`, and the keys of the map are the first
components. -/
structure Project where
  Networks : List (String × NetworkConfig)
  Volumes : List (String × VolumeConfig)
  deriving DecidableEq, Repr

/-- A container handle; `container.ID()` is the only part that reaches a
command line. -/
structure Container where
  ID : String
  deriving DecidableEq, Repr

/-- Options of `Down`. -/
structure DownOptions where
  RemoveVolumes : Bool
  deriving DecidableEq, Repr

/-- One call made to an external collaborator. -/
inductive Call where
  | serviceNames
  | containers (svc : String)
  | containerInfo (id : String)
  | networkExists (fullName : String)
  | volumeExists (fullName : String)
  | run (args : List String)
  deriving DecidableEq, Repr

/-- The external collaborators, as state transformers over a state `σ`.
`runNerdctlCmd` answers `none` for a nil error. -/
structure Runtime (σ : Type) where
  ServiceNames : σ → Except ExtErr (List String) × σ
  Containers : String → σ → Except ExtErr (List Container) × σ
  ContainerInfo : Container → σ → σ
  NetworkExists : String → σ → Except ExtErr Bool × σ
  VolumeExists : String → σ → Except ExtErr Bool × σ
  runNerdctlCmd : List String → σ → Option ExtErr × σ

/-- The collaborators' state together with the calls made so far. -/
structure World (σ : Type) where
  state : σ
  trace : List Call

/-- The keys of a Go map. -/
def keys {β : Type} (m : List (String × β)) : List String :=
  (m.map Prod.fst).dedup

/-- Go's `for k := range m` visits every key of `m` exactly once, in an order
that is not specified: `order` is a possible sequence of visited keys. -/
def RangeOrder {β : Type} (m : List (String × β)) (order : List String) : Prop :=
  order.Perm (keys m)

instance decidableRangeOrder {β : Type} (m : List (String × β)) (order : List String) :
    Decidable (RangeOrder m order) := by
  unfold RangeOrder; infer_instance

/-- Modelled from the spec: `strutil.ReverseStrSlice`, whose body is not in
`down.go`; the spec says the service list is processed in the reverse of the
supplied order. -/
def ReverseStrSlice (in_ : List String) : List String :=
  in_.reverse

/-! ## Collaborator calls, recorded in the trace -/

variable {σ : Type}

/-- Call `c.ServiceNames()`. -/
def callServiceNames (R : Runtime σ) (w : World σ) :
    Except ExtErr (List String) × World σ :=
  ((R.ServiceNames w.state).1, ⟨(R.ServiceNames w.state).2, w.trace ++ [Call.serviceNames]⟩)

/-- Call `c.Containers(ctx, svc)`. -/
def callContainers (R : Runtime σ) (svc : String) (w : World σ) :
    Except ExtErr (List Container) × World σ :=
  ((R.Containers svc w.state).1,
    ⟨(R.Containers svc w.state).2, w.trace ++ [Call.containers svc]⟩)

/-- Call `container.Info(ctx, containerd.WithoutRefreshedMetadata)`; its
result only feeds a log line and its error is dropped. -/
def callContainerInfo (R : Runtime σ) (c : Container) (w : World σ) : World σ :=
  ⟨R.ContainerInfo c w.state, w.trace ++ [Call.containerInfo c.ID]⟩

/-- Call `c.NetworkExists(fullName)`. -/
def callNetworkExists (R : Runtime σ) (fullName : String) (w : World σ) :
    Except ExtErr Bool × World σ :=
  ((R.NetworkExists fullName w.state).1,
    ⟨(R.NetworkExists fullName w.state).2, w.trace ++ [Call.networkExists fullName]⟩)

/-- Call `c.VolumeExists(fullName)`. -/
def callVolumeExists (R : Runtime σ) (fullName : String) (w : World σ) :
    Except ExtErr Bool × World σ :=
  ((R.VolumeExists fullName w.state).1,
    ⟨(R.VolumeExists fullName w.state).2, w.trace ++ [Call.volumeExists fullName]⟩)

/-- Call `c.runNerdctlCmd(ctx, args...)`. -/
def callRun (R : Runtime σ) (args : List String) (w : World σ) :
    Option ExtErr × World σ :=
  ((R.runNerdctlCmd args w.state).1,
    ⟨(R.runNerdctlCmd args w.state).2, w.trace ++ [Call.run args]⟩)

/-! ## The functions of `down.go` -/

/-- The argument list built in `downContainers`. -/
def containerRmArgs (removeAnonVolumes : Bool) (id : String) : List String :=
  (["rm", "-f"] ++ (if removeAnonVolumes then ["-v"] else [])) ++ [id]

/-- `Composer.downContainers`: every container is removed with `rm -f [-v] ID`;
an error of the command is only logged, and the function returns nil. -/
def downContainers (R : Runtime σ) :
    List Container → Bool → World σ → Except Error Unit × World σ
  | [], _, w => (.ok (), w)
  | container :: rest, removeAnonVolumes, w =>
    let w1 := callContainerInfo R container w
    let args := containerRmArgs removeAnonVolumes container.ID
    downContainers R rest removeAnonVolumes (callRun R args w1).2

/-- `Composer.downNetwork`. -/
def downNetwork (R : Runtime σ) (p : Project) (shortName : String) (w : World σ) :
    Except Error Unit × World σ :=
  match p.Networks.lookup shortName with
  | none => (.error (.invalidNetworkName shortName), w)
  | some net =>
    if net.External.External then (.ok (), w)
    else
      match callNetworkExists R net.Name w with
      | (.error err, w1) => (.error (.collaborator err), w1)
      | (.ok netExists, w1) =>
        if netExists then (.ok (), (callRun R ["network", "rm", net.Name] w1).2)
        else (.ok (), w1)

/-- `Composer.downVolume`. -/
def downVolume (R : Runtime σ) (p : Project) (shortName : String) (w : World σ) :
    Except Error Unit × World σ :=
  match p.Volumes.lookup shortName with
  | none => (.error (.invalidVolumeName shortName), w)
  | some vol =>
    if vol.External.External then (.ok (), w)
    else
      match callVolumeExists R vol.Name w with
      | (.error err, w1) => (.error (.collaborator err), w1)
      | (.ok volExists, w1) =>
        if volExists then (.ok (), (callRun R ["volume", "rm", "-f", vol.Name] w1).2)
        else (.ok (), w1)

/-- The loop of `Down` over the reversed service names (lines 40-48). -/
def downServices (R : Runtime σ) :
    List String → Bool → World σ → Except Error Unit × World σ
  | [], _, w => (.ok (), w)
  | svc :: rest, removeVolumes, w =>
    match callContainers R svc w with
    | (.error err, w1) => (.error (.collaborator err), w1)
    | (.ok containers, w1) =>
      match downContainers R containers removeVolumes w1 with
      | (.error err, w2) => (.error err, w2)
      | (.ok (), w2) => downServices R rest removeVolumes w2

/-- The loop of `Down` over the keys of `c.project.Networks` (lines 50-54),
given the order in which `range` visits them. -/
def downNetworks (R : Runtime σ) (p : Project) :
    List String → World σ → Except Error Unit × World σ
  | [], w => (.ok (), w)
  | shortName :: rest, w =>
    match downNetwork R p shortName w with
    | (.error err, w1) => (.error err, w1)
    | (.ok (), w1) => downNetworks R p rest w1

/-- The loop of `Down` over the keys of `c.project.Volumes` (lines 57-61),
given the order in which `range` visits them. -/
def downVolumes (R : Runtime σ) (p : Project) :
    List String → World σ → Except Error Unit × World σ
  | [], w => (.ok (), w)
  | shortName :: rest, w =>
    match downVolume R p shortName w with
    | (.error err, w1) => (.error err, w1)
    | (.ok (), w1) => downVolumes R p rest w1

/-- The part of `Down` that follows the service loop (lines 50-64). -/
def downResources (R : Runtime σ) (p : Project) (downOptions : DownOptions)
    (netOrder volOrder : List String) (w : World σ) : Except Error Unit × World σ :=
  match downNetworks R p netOrder w with
  | (.error err, w1) => (.error err, w1)
  | (.ok (), w1) =>
    if downOptions.RemoveVolumes then downVolumes R p volOrder w1
    else (.ok (), w1)

/-- `Composer.Down`, started in collaborator state `s` with an empty trace.
`netOrder` and `volOrder` are the orders in which the two `range` loops visit
the keys of `c.project.Networks` and `c.project.Volumes`. -/
def Down (R : Runtime σ) (p : Project) (downOptions : DownOptions)
    (netOrder volOrder : List String) (s : σ) : Except Error Unit × World σ :=
  match callServiceNames R ⟨s, []⟩ with
  | (.error err, w) => (.error (.collaborator err), w)
  | (.ok serviceNames, w) =>
    match downServices R (ReverseStrSlice serviceNames) downOptions.RemoveVolumes w with
    | (.error err, w1) => (.error err, w1)
    | (.ok (), w1) => downResources R p downOptions netOrder volOrder w1

/-- The first part of `Down` (lines 35-48): obtain the service list and run the
service loop. -/
def servicePhase (R : Runtime σ) (downOptions : DownOptions) (s : σ) :
    Except Error Unit × World σ :=
  match callServiceNames R ⟨s, []⟩ with
  | (.error err, w) => (.error (.collaborator err), w)
  | (.ok serviceNames, w) =>
    downServices R (ReverseStrSlice serviceNames) downOptions.RemoveVolumes w

/-! ## Reading a trace -/

/-- The argument lists of the commands run, in order. -/
def removals (trace : List Call) : List (List String) :=
  trace.filterMap fun c =>
    match c with
    | .run args => some args
    | _ => none

/-- The container ID named by a container-removal command (`rm ...`): its last
argument. -/
def containerRemovalID (args : List String) : Option String :=
  if args.head? = some "rm" then args.getLast? else none

/-- The container IDs passed to container-removal commands, in order. -/
def containerRemovalIDs (trace : List Call) : List String :=
  (removals trace).filterMap containerRemovalID

/-- A `network rm ...` command. -/
def isNetworkRemoval (args : List String) : Bool :=
  args.take 2 == ["network", "rm"]

/-- A `volume rm ...` command. -/
def isVolumeRemoval (args : List String) : Bool :=
  args.take 2 == ["volume", "rm"]

/-- The calls `downContainers` makes for a list of containers. -/
def containerCalls (removeAnonVolumes : Bool) (containers : List Container) : List Call :=
  containers.flatMap fun c =>
    [Call.containerInfo c.ID, Call.run (containerRmArgs removeAnonVolumes c.ID)]

/-- The calls the service loop makes when every lookup succeeds with
`assign`. -/
def serviceCalls (removeVolumes : Bool) (assign : String → List Container)
    (services : List String) : List Call :=
  services.flatMap fun svc => Call.containers svc :: containerCalls removeVolumes (assign svc)

/-! ## Descriptions of the calls of a run -/

/-- The calls the network loop makes when every key is known and the existence
check of a full name answers `exists_ name` without error. -/
def networkCalls (p : Project) (exists_ : String → Bool) (order : List String) : List Call :=
  order.flatMap fun k =>
    match p.Networks.lookup k with
    | none => []
    | some net =>
      if net.External.External then []
      else Call.networkExists net.Name ::
        (if exists_ net.Name then [Call.run ["network", "rm", net.Name]] else [])

/-- The calls the volume loop makes when every key is known and the existence
check of a full name answers `exists_ name` without error. -/
def volumeCalls (p : Project) (exists_ : String → Bool) (order : List String) : List Call :=
  order.flatMap fun k =>
    match p.Volumes.lookup k with
    | none => []
    | some vol =>
      if vol.External.External then []
      else Call.volumeExists vol.Name ::
        (if exists_ vol.Name then [Call.run ["volume", "rm", "-f", vol.Name]] else [])

/-- A call of the service loop: a container lookup, or the two calls made for
one container. -/
def ServiceCall (removeVolumes : Bool) (c : Call) : Prop :=
  (∃ svc, c = Call.containers svc) ∨
    ∃ id, c = Call.containerInfo id ∨ c = Call.run (containerRmArgs removeVolumes id)

/-- A call made on behalf of a declared network that is not external. -/
def NetworkCall (p : Project) (c : Call) : Prop :=
  ∃ k net, p.Networks.lookup k = some net ∧ net.External.External = false ∧
    (c = Call.networkExists net.Name ∨ c = Call.run ["network", "rm", net.Name])

/-- A call made on behalf of a declared volume that is not external. -/
def VolumeCall (p : Project) (c : Call) : Prop :=
  ∃ k vol, p.Volumes.lookup k = some vol ∧ vol.External.External = false ∧
    (c = Call.volumeExists vol.Name ∨ c = Call.run ["volume", "rm", "-f", vol.Name])

/-- Answers of the lookups and existence checks of a run in which none of them
fails. -/
structure Answers where
  services : List String
  containers : String → List Container
  networkExists : String → Bool
  volumeExists : String → Bool

/-- In state `s` the service list is obtained as `A.services`, and in every
state the container lookups and the existence checks succeed with the answers
of `A`. -/
def Succeeds (R : Runtime σ) (A : Answers) (s : σ) : Prop :=
  (R.ServiceNames s).1 = .ok A.services ∧
  (∀ svc s', (R.Containers svc s').1 = .ok (A.containers svc)) ∧
  (∀ name s', (R.NetworkExists name s').1 = .ok (A.networkExists name)) ∧
  (∀ name s', (R.VolumeExists name s').1 = .ok (A.volumeExists name))

/-- The calls of a run of `Down` with the answers `A`. -/
def expectedCalls (A : Answers) (p : Project) (o : DownOptions)
    (netOrder volOrder : List String) : List Call :=
  Call.serviceNames ::
    (serviceCalls o.RemoveVolumes A.containers (ReverseStrSlice A.services) ++
      (networkCalls p A.networkExists netOrder ++
        (if o.RemoveVolumes then volumeCalls p A.volumeExists volOrder else [])))

/-- The declared networks: the values of the network mapping, one per key. -/
def declaredNetworks (p : Project) : List NetworkConfig :=
  (keys p.Networks).filterMap fun k => p.Networks.lookup k

/-- The declared volumes: the values of the volume mapping, one per key. -/
def declaredVolumes (p : Project) : List VolumeConfig :=
  (keys p.Volumes).filterMap fun k => p.Volumes.lookup k

/-! ## Answers given during a run -/

/-- The answers a run of `Down` receives, by position: `found i` is what the
lookup of the `i`-th service of the reversed list returns, `networkExists i`
(`volumeExists i`) is what the existence check made for the `i`-th visited
network (volume) key answers. -/
structure RunAnswers where
  services : List String
  found : Nat → List Container
  networkExists : Nat → Bool
  volumeExists : Nat → Bool

/-- The run of `Down` from `s` receives the answers `A`: the service list is
obtained, and each container lookup and each existence check succeeds with the
answer of `A`, in the collaborator state in which the run makes it (the state
left by the services, resp. keys, processed before). -/
def AnswersDuring (R : Runtime σ) (p : Project) (o : DownOptions)
    (netOrder volOrder : List String) (s : σ) (A : RunAnswers) : Prop :=
  (R.ServiceNames s).1 = .ok A.services ∧
  (∀ pre svc post, ReverseStrSlice A.services = pre ++ svc :: post →
    (R.Containers svc
      (downServices R pre o.RemoveVolumes (callServiceNames R ⟨s, []⟩).2).2.state).1
      = .ok (A.found pre.length)) ∧
  (∀ pre k post, netOrder = pre ++ k :: post →
    ∀ net, p.Networks.lookup k = some net → net.External.External = false →
    (R.NetworkExists net.Name (downNetworks R p pre (servicePhase R o s).2).2.state).1
      = .ok (A.networkExists pre.length)) ∧
  (o.RemoveVolumes = true → ∀ pre k post, volOrder = pre ++ k :: post →
    ∀ vol, p.Volumes.lookup k = some vol → vol.External.External = false →
    (R.VolumeExists vol.Name
      (downVolumes R p pre (downNetworks R p netOrder (servicePhase R o s).2).2).2.state).1
      = .ok (A.volumeExists pre.length))

/-- The calls of the service loop when the `i`-th lookup returns `found i`. -/
def serviceCallsRun (removeVolumes : Bool) (found : Nat → List Container) :
    List String → List Call
  | [] => []
  | svc :: rest =>
    (Call.containers svc :: containerCalls removeVolumes (found 0)) ++
      serviceCallsRun removeVolumes (fun i => found (i + 1)) rest

/-- The calls of the network loop when every key is known and the check made
for the `i`-th key answers `exists_ i`. -/
def networkCallsRun (p : Project) (exists_ : Nat → Bool) : List String → List Call
  | [] => []
  | k :: rest =>
    (match p.Networks.lookup k with
      | none => []
      | some net =>
        if net.External.External then []
        else Call.networkExists net.Name ::
          (if exists_ 0 then [Call.run ["network", "rm", net.Name]] else [])) ++
      networkCallsRun p (fun i => exists_ (i + 1)) rest

/-- The calls of the volume loop when every key is known and the check made
for the `i`-th key answers `exists_ i`. -/
def volumeCallsRun (p : Project) (exists_ : Nat → Bool) : List String → List Call
  | [] => []
  | k :: rest =>
    (match p.Volumes.lookup k with
      | none => []
      | some vol =>
        if vol.External.External then []
        else Call.volumeExists vol.Name ::
          (if exists_ 0 then [Call.run ["volume", "rm", "-f", vol.Name]] else [])) ++
      volumeCallsRun p (fun i => exists_ (i + 1)) rest

/-- The calls of a run of `Down` that receives the answers `A`. -/
def expectedRunCalls (A : RunAnswers) (p : Project) (o : DownOptions)
    (netOrder volOrder : List String) : List Call :=
  Call.serviceNames ::
    (serviceCallsRun o.RemoveVolumes A.found (ReverseStrSlice A.services) ++
      (networkCallsRun p A.networkExists netOrder ++
        (if o.RemoveVolumes then volumeCallsRun p A.volumeExists volOrder else [])))

/-! ## A runtime made of sets of existing resources -/

/-- Modelled from the spec: the state of the container runtime behind the
collaborators, which is not in `down.go`: the existing containers, each with
the service it belongs to, the existing networks and the existing volumes. -/
structure Existing where
  containers : List (String × Container)
  networks : List String
  volumes : List String
  deriving DecidableEq, Repr

/-- Modelled from the spec: the effect of a removal command on the existing
resources, which is not in `down.go`: the command succeeds and deletes the
resource it names (a container by ID, a network or a volume by full name). -/
def removeResource (args : List String) (s : Existing) : Option ExtErr × Existing :=
  match containerRemovalID args with
  | some id => (none, { s with containers := s.containers.filter fun c => decide (c.2.ID ≠ id) })
  | none =>
    if isNetworkRemoval args then
      (none, { s with networks := s.networks.filter fun n => decide (some n ≠ args.getLast?) })
    else if isVolumeRemoval args then
      (none, { s with volumes := s.volumes.filter fun v => decide (some v ≠ args.getLast?) })
    else (some "unknown command", s)

/-- Modelled from the spec: the collaborators over the sets of existing
resources, for a project whose service list is `services`: lookups and
existence checks read the sets and never fail. -/
def setRuntime (services : List String) : Runtime Existing where
  ServiceNames s := (.ok services, s)
  Containers svc s := (.ok ((s.containers.filter fun c => decide (c.1 = svc)).map Prod.snd), s)
  ContainerInfo _ s := s
  NetworkExists name s := (.ok (decide (name ∈ s.networks)), s)
  VolumeExists name s := (.ok (decide (name ∈ s.volumes)), s)
  runNerdctlCmd args s := removeResource args s

/-- Nothing is created: every resource of `s'` is a resource of `s`. -/
def Shrinks (s s' : Existing) : Prop :=
  (∀ c ∈ s'.containers, c ∈ s.containers) ∧ (∀ n ∈ s'.networks, n ∈ s.networks) ∧
    (∀ v ∈ s'.volumes, v ∈ s.volumes)

/-! ## Example inputs -/

/-- A runtime whose state counts the commands run so far: lookups and
existence checks answer as given, and the `n`-th command fails when
`fails n`. -/
def scriptedRuntime (services : Except ExtErr (List String))
    (containers : String → Except ExtErr (List Container))
    (networkExists volumeExists : String → Except ExtErr Bool)
    (fails : Nat → Bool) : Runtime Nat where
  ServiceNames s := (services, s)
  Containers svc s := (containers svc, s)
  ContainerInfo _ s := s
  NetworkExists name s := (networkExists name, s)
  VolumeExists name s := (volumeExists name, s)
  runNerdctlCmd _ s := (if fails s then some "command failed" else none, s + 1)

/-- Containers of the services `A`, `B` and `C`. -/
def abcContainers (svc : String) : List Container :=
  if svc = "A" then [⟨"a1"⟩]
  else if svc = "B" then [⟨"b1"⟩]
  else if svc = "C" then [⟨"c1"⟩, ⟨"c2"⟩]
  else []

/-- Services `[A, B, C]`; every second command fails. -/
def abcRuntime : Runtime Nat :=
  scriptedRuntime (.ok ["A", "B", "C"]) (fun svc => .ok (abcContainers svc))
    (fun _ => .ok true) (fun _ => .ok true) (fun n => n % 2 == 1)

/-- Two declared networks carry the full name `shared`; `a` is external, `b` is
not. -/
def sharedNameProject : Project :=
  ⟨[("a", ⟨"shared", ⟨true⟩⟩), ("b", ⟨"shared", ⟨false⟩⟩)], []⟩

/-- No services; every network and volume exists, every command succeeds. -/
def allPresentRuntime : Runtime Nat :=
  scriptedRuntime (.ok []) (fun _ => .ok []) (fun _ => .ok true) (fun _ => .ok true)
    (fun _ => false)

/-- One non-external network `default` and one non-external volume `data`. -/
def webProject : Project :=
  ⟨[("default", ⟨"proj_default", ⟨false⟩⟩)], [("data", ⟨"proj_data", ⟨false⟩⟩)]⟩

/-- Containers of the services `web` and `db`. -/
def webContainers (svc : String) : List Container :=
  if svc = "web" then [⟨"web_1"⟩, ⟨"web_2"⟩]
  else if svc = "db" then [⟨"db_1"⟩]
  else []

/-- Services `[db, web]`; every lookup succeeds, the network existence check
reports an error. -/
def checkFailsRuntime : Runtime Nat :=
  scriptedRuntime (.ok ["db", "web"]) (fun svc => .ok (webContainers svc))
    (fun _ => .error "network inspect failed") (fun _ => .ok true) (fun _ => false)

/-- Networks `a` and `b`, neither external. -/
def twoNetworksProject : Project :=
  ⟨[("a", ⟨"proj_a", ⟨false⟩⟩), ("b", ⟨"proj_b", ⟨false⟩⟩)], [("data", ⟨"proj_data", ⟨false⟩⟩)]⟩

/-- Services `[db, web]`; the lookup of `db` fails, every second command
fails. -/
def lookupFailsRuntime : Runtime Nat :=
  scriptedRuntime (.ok ["db", "web"])
    (fun svc => if svc = "db" then .error "cannot list db" else .ok (webContainers svc))
    (fun _ => .ok true) (fun _ => .ok true) (fun n => n % 2 == 0)

/-- No containers, no networks, no volumes are left; every command fails. -/
def goneRuntime : Runtime Nat :=
  scriptedRuntime (.ok ["db", "web"]) (fun _ => .ok []) (fun _ => .ok false)
    (fun _ => .ok false) (fun _ => true)

/-- No containers, no networks, no volumes are left, and the service list cannot
be obtained. -/
def noServiceListRuntime : Runtime Nat :=
  scriptedRuntime (.error "cannot order services") (fun _ => .ok []) (fun _ => .ok false)
    (fun _ => .ok false) (fun _ => false)

/-- Networks `a` and `b`, neither external, with the same full name `shared`,
and the volume `data`. -/
def twinNetworksProject : Project :=
  ⟨[("a", ⟨"shared", ⟨false⟩⟩), ("b", ⟨"shared", ⟨false⟩⟩)], [("data", ⟨"proj_data", ⟨false⟩⟩)]⟩

/-- The network `shared` and the volume `proj_data` exist; no containers. -/
def twinExisting : Existing :=
  ⟨[], ["shared"], ["proj_data"]⟩

/-- The answers received on the `[db, web]` project from `webExisting`: the
containers of `web`, then those of `db`; every checked network and volume
exists. -/
def webRunAnswers : RunAnswers :=
  ⟨["db", "web"],
    fun i => if i = 0 then [⟨"web_1"⟩, ⟨"web_2"⟩] else if i = 1 then [⟨"db_1"⟩] else [],
    fun _ => true, fun _ => true⟩

/-- A set runtime state for the `[db, web]` project, with a container, a network
and a volume that do not belong to it. -/
def webExisting : Existing :=
  ⟨[("web", ⟨"web_1"⟩), ("db", ⟨"db_1"⟩), ("web", ⟨"web_2"⟩), ("cache", ⟨"cache_1"⟩)],
    ["bridge", "proj_default"], ["proj_data", "scratch"]⟩

/-! ## Lemmas on the container pass -/

theorem downContainers_ok (R : Runtime σ) (containers : List Container) (rav : Bool)
    (w : World σ) : (downContainers R containers rav w).1 = .ok () := by
  induction containers generalizing w with
  | nil => rfl
  | cons c rest ih => simp only [downContainers]; exact ih _

theorem downContainers_trace (R : Runtime σ) (containers : List Container) (rav : Bool)
    (w : World σ) :
    (downContainers R containers rav w).2.trace = w.trace ++ containerCalls rav containers := by
  induction containers generalizing w with
  | nil => simp [downContainers, containerCalls]
  | cons c rest ih =>
    simp only [downContainers]
    rw [ih]
    simp [callRun, callContainerInfo, containerCalls]

/-! ## Unfolding one step of each loop -/

theorem downServices_cons_error (R : Runtime σ) (svc : String) (rest : List String) (rv : Bool)
    (w : World σ) (err : ExtErr) (h : (R.Containers svc w.state).1 = .error err) :
    downServices R (svc :: rest) rv w = (.error (.collaborator err), (callContainers R svc w).2) := by
  have hc : callContainers R svc w = (.error err, (callContainers R svc w).2) := by
    simp [callContainers, h]
  rw [downServices, hc]

theorem downServices_cons_ok (R : Runtime σ) (svc : String) (rest : List String) (rv : Bool)
    (w : World σ) (cs : List Container) (h : (R.Containers svc w.state).1 = .ok cs) :
    downServices R (svc :: rest) rv w
      = downServices R rest rv (downContainers R cs rv (callContainers R svc w).2).2 := by
  have hc : callContainers R svc w = (.ok cs, (callContainers R svc w).2) := by
    simp [callContainers, h]
  have hd := downContainers_ok R cs rv (callContainers R svc w).2
  rw [downServices, hc]
  simp only []
  generalize downContainers R cs rv (callContainers R svc w).2 = res at hd
  obtain ⟨r, w2⟩ := res
  simp only at hd
  subst hd
  rfl

theorem downNetworks_cons_error (R : Runtime σ) (p : Project) (k : String) (rest : List String)
    (w : World σ) (err : Error) (h : (downNetwork R p k w).1 = .error err) :
    downNetworks R p (k :: rest) w = (.error err, (downNetwork R p k w).2) := by
  rw [downNetworks]
  generalize downNetwork R p k w = res at h
  obtain ⟨r, w1⟩ := res
  simp only at h
  subst h
  rfl

theorem downNetworks_cons_ok (R : Runtime σ) (p : Project) (k : String) (rest : List String)
    (w : World σ) (h : (downNetwork R p k w).1 = .ok ()) :
    downNetworks R p (k :: rest) w = downNetworks R p rest (downNetwork R p k w).2 := by
  rw [downNetworks]
  generalize downNetwork R p k w = res at h
  obtain ⟨r, w1⟩ := res
  simp only at h
  subst h
  rfl

theorem downVolumes_cons_error (R : Runtime σ) (p : Project) (k : String) (rest : List String)
    (w : World σ) (err : Error) (h : (downVolume R p k w).1 = .error err) :
    downVolumes R p (k :: rest) w = (.error err, (downVolume R p k w).2) := by
  rw [downVolumes]
  generalize downVolume R p k w = res at h
  obtain ⟨r, w1⟩ := res
  simp only at h
  subst h
  rfl

theorem downVolumes_cons_ok (R : Runtime σ) (p : Project) (k : String) (rest : List String)
    (w : World σ) (h : (downVolume R p k w).1 = .ok ()) :
    downVolumes R p (k :: rest) w = downVolumes R p rest (downVolume R p k w).2 := by
  rw [downVolumes]
  generalize downVolume R p k w = res at h
  obtain ⟨r, w1⟩ := res
  simp only at h
  subst h
  rfl

theorem downNetwork_unknown (R : Runtime σ) (p : Project) (k : String) (w : World σ)
    (hl : p.Networks.lookup k = none) :
    downNetwork R p k w = (.error (.invalidNetworkName k), w) := by
  simp [downNetwork, hl]

theorem downNetwork_external (R : Runtime σ) (p : Project) (k : String) (w : World σ)
    (net : NetworkConfig) (hl : p.Networks.lookup k = some net)
    (hx : net.External.External = true) :
    downNetwork R p k w = (.ok (), w) := by
  simp [downNetwork, hl, hx]

theorem downNetwork_check_error (R : Runtime σ) (p : Project) (k : String) (w : World σ)
    (net : NetworkConfig) (err : ExtErr) (hl : p.Networks.lookup k = some net)
    (hx : net.External.External = false)
    (hr : (R.NetworkExists net.Name w.state).1 = .error err) :
    downNetwork R p k w
      = (.error (.collaborator err), (callNetworkExists R net.Name w).2) := by
  have hc : callNetworkExists R net.Name w
      = (.error err, (callNetworkExists R net.Name w).2) := by
    simp [callNetworkExists, hr]
  unfold downNetwork
  simp only [hl, hx, Bool.false_eq_true, if_false]
  rw [hc]

theorem downNetwork_absent (R : Runtime σ) (p : Project) (k : String) (w : World σ)
    (net : NetworkConfig) (hl : p.Networks.lookup k = some net)
    (hx : net.External.External = false)
    (hr : (R.NetworkExists net.Name w.state).1 = .ok false) :
    downNetwork R p k w = (.ok (), (callNetworkExists R net.Name w).2) := by
  have hc : callNetworkExists R net.Name w
      = (.ok false, (callNetworkExists R net.Name w).2) := by
    simp [callNetworkExists, hr]
  unfold downNetwork
  simp only [hl, hx, Bool.false_eq_true, if_false]
  rw [hc]
  simp

theorem downNetwork_present (R : Runtime σ) (p : Project) (k : String) (w : World σ)
    (net : NetworkConfig) (hl : p.Networks.lookup k = some net)
    (hx : net.External.External = false)
    (hr : (R.NetworkExists net.Name w.state).1 = .ok true) :
    downNetwork R p k w
      = (.ok (), (callRun R ["network", "rm", net.Name] (callNetworkExists R net.Name w).2).2) := by
  have hc : callNetworkExists R net.Name w
      = (.ok true, (callNetworkExists R net.Name w).2) := by
    simp [callNetworkExists, hr]
  unfold downNetwork
  simp only [hl, hx, Bool.false_eq_true, if_false]
  rw [hc]
  simp

/-- The five ways `downNetwork` can go. -/
theorem downNetwork_cases (R : Runtime σ) (p : Project) (k : String) (w : World σ) :
    (p.Networks.lookup k = none ∧ downNetwork R p k w = (.error (.invalidNetworkName k), w)) ∨
    (∃ net, p.Networks.lookup k = some net ∧ net.External.External = true ∧
      downNetwork R p k w = (.ok (), w)) ∨
    (∃ net err, p.Networks.lookup k = some net ∧ net.External.External = false ∧
      (R.NetworkExists net.Name w.state).1 = .error err ∧
      downNetwork R p k w
        = (.error (.collaborator err), (callNetworkExists R net.Name w).2)) ∨
    (∃ net, p.Networks.lookup k = some net ∧ net.External.External = false ∧
      (R.NetworkExists net.Name w.state).1 = .ok false ∧
      downNetwork R p k w = (.ok (), (callNetworkExists R net.Name w).2)) ∨
    (∃ net, p.Networks.lookup k = some net ∧ net.External.External = false ∧
      (R.NetworkExists net.Name w.state).1 = .ok true ∧
      downNetwork R p k w
        = (.ok (), (callRun R ["network", "rm", net.Name] (callNetworkExists R net.Name w).2).2)) := by
  cases hl : p.Networks.lookup k with
  | none => exact Or.inl ⟨rfl, downNetwork_unknown R p k w hl⟩
  | some net =>
    cases hx : net.External.External with
    | true => exact Or.inr (Or.inl ⟨net, rfl, hx, downNetwork_external R p k w net hl hx⟩)
    | false =>
      cases hr : (R.NetworkExists net.Name w.state).1 with
      | error err =>
        exact Or.inr (Or.inr (Or.inl
          ⟨net, err, rfl, hx, hr, downNetwork_check_error R p k w net err hl hx hr⟩))
      | ok b =>
        cases b with
        | false =>
          exact Or.inr (Or.inr (Or.inr (Or.inl
            ⟨net, rfl, hx, hr, downNetwork_absent R p k w net hl hx hr⟩)))
        | true =>
          exact Or.inr (Or.inr (Or.inr (Or.inr
            ⟨net, rfl, hx, hr, downNetwork_present R p k w net hl hx hr⟩)))

theorem downVolume_unknown (R : Runtime σ) (p : Project) (k : String) (w : World σ)
    (hl : p.Volumes.lookup k = none) :
    downVolume R p k w = (.error (.invalidVolumeName k), w) := by
  simp [downVolume, hl]

theorem downVolume_external (R : Runtime σ) (p : Project) (k : String) (w : World σ)
    (vol : VolumeConfig) (hl : p.Volumes.lookup k = some vol)
    (hx : vol.External.External = true) :
    downVolume R p k w = (.ok (), w) := by
  simp [downVolume, hl, hx]

theorem downVolume_check_error (R : Runtime σ) (p : Project) (k : String) (w : World σ)
    (vol : VolumeConfig) (err : ExtErr) (hl : p.Volumes.lookup k = some vol)
    (hx : vol.External.External = false)
    (hr : (R.VolumeExists vol.Name w.state).1 = .error err) :
    downVolume R p k w
      = (.error (.collaborator err), (callVolumeExists R vol.Name w).2) := by
  have hc : callVolumeExists R vol.Name w
      = (.error err, (callVolumeExists R vol.Name w).2) := by
    simp [callVolumeExists, hr]
  unfold downVolume
  simp only [hl, hx, Bool.false_eq_true, if_false]
  rw [hc]

theorem downVolume_absent (R : Runtime σ) (p : Project) (k : String) (w : World σ)
    (vol : VolumeConfig) (hl : p.Volumes.lookup k = some vol)
    (hx : vol.External.External = false)
    (hr : (R.VolumeExists vol.Name w.state).1 = .ok false) :
    downVolume R p k w = (.ok (), (callVolumeExists R vol.Name w).2) := by
  have hc : callVolumeExists R vol.Name w
      = (.ok false, (callVolumeExists R vol.Name w).2) := by
    simp [callVolumeExists, hr]
  unfold downVolume
  simp only [hl, hx, Bool.false_eq_true, if_false]
  rw [hc]
  simp

theorem downVolume_present (R : Runtime σ) (p : Project) (k : String) (w : World σ)
    (vol : VolumeConfig) (hl : p.Volumes.lookup k = some vol)
    (hx : vol.External.External = false)
    (hr : (R.VolumeExists vol.Name w.state).1 = .ok true) :
    downVolume R p k w
      = (.ok (), (callRun R ["volume", "rm", "-f", vol.Name] (callVolumeExists R vol.Name w).2).2) := by
  have hc : callVolumeExists R vol.Name w
      = (.ok true, (callVolumeExists R vol.Name w).2) := by
    simp [callVolumeExists, hr]
  unfold downVolume
  simp only [hl, hx, Bool.false_eq_true, if_false]
  rw [hc]
  simp

/-- The five ways `downVolume` can go. -/
theorem downVolume_cases (R : Runtime σ) (p : Project) (k : String) (w : World σ) :
    (p.Volumes.lookup k = none ∧ downVolume R p k w = (.error (.invalidVolumeName k), w)) ∨
    (∃ vol, p.Volumes.lookup k = some vol ∧ vol.External.External = true ∧
      downVolume R p k w = (.ok (), w)) ∨
    (∃ vol err, p.Volumes.lookup k = some vol ∧ vol.External.External = false ∧
      (R.VolumeExists vol.Name w.state).1 = .error err ∧
      downVolume R p k w
        = (.error (.collaborator err), (callVolumeExists R vol.Name w).2)) ∨
    (∃ vol, p.Volumes.lookup k = some vol ∧ vol.External.External = false ∧
      (R.VolumeExists vol.Name w.state).1 = .ok false ∧
      downVolume R p k w = (.ok (), (callVolumeExists R vol.Name w).2)) ∨
    (∃ vol, p.Volumes.lookup k = some vol ∧ vol.External.External = false ∧
      (R.VolumeExists vol.Name w.state).1 = .ok true ∧
      downVolume R p k w
        = (.ok (), (callRun R ["volume", "rm", "-f", vol.Name] (callVolumeExists R vol.Name w).2).2)) := by
  cases hl : p.Volumes.lookup k with
  | none => exact Or.inl ⟨rfl, downVolume_unknown R p k w hl⟩
  | some vol =>
    cases hx : vol.External.External with
    | true => exact Or.inr (Or.inl ⟨vol, rfl, hx, downVolume_external R p k w vol hl hx⟩)
    | false =>
      cases hr : (R.VolumeExists vol.Name w.state).1 with
      | error err =>
        exact Or.inr (Or.inr (Or.inl
          ⟨vol, err, rfl, hx, hr, downVolume_check_error R p k w vol err hl hx hr⟩))
      | ok b =>
        cases b with
        | false =>
          exact Or.inr (Or.inr (Or.inr (Or.inl
            ⟨vol, rfl, hx, hr, downVolume_absent R p k w vol hl hx hr⟩)))
        | true =>
          exact Or.inr (Or.inr (Or.inr (Or.inr
            ⟨vol, rfl, hx, hr, downVolume_present R p k w vol hl hx hr⟩)))

theorem downServices_of_lookups (R : Runtime σ) (assign : String → List Container)
    (services : List String) (rv : Bool)
    (hlook : ∀ svc ∈ services, ∀ s, (R.Containers svc s).1 = .ok (assign svc))
    (w : World σ) :
    (downServices R services rv w).1 = .ok () ∧
      (downServices R services rv w).2.trace = w.trace ++ serviceCalls rv assign services := by
  induction services generalizing w with
  | nil => simp [downServices, serviceCalls]
  | cons svc rest ih =>
    have h1 := hlook svc (List.mem_cons_self _ _) w.state
    have hrest : ∀ x ∈ rest, ∀ s, (R.Containers x s).1 = .ok (assign x) :=
      fun x hx => hlook x (List.mem_cons_of_mem _ hx)
    rw [downServices_cons_ok R svc rest rv w _ h1]
    obtain ⟨ih1, ih2⟩ := ih hrest (downContainers R (assign svc) rv (callContainers R svc w).2).2
    refine ⟨ih1, ?_⟩
    rw [ih2, downContainers_trace]
    simp [serviceCalls, callContainers]

/-! ## The resource passes under fixed answers -/

theorem downNetworks_of_answers (R : Runtime σ) (p : Project) (exists_ : String → Bool)
    (order : List String)
    (hkeys : ∀ k ∈ order, p.Networks.lookup k ≠ none)
    (hex : ∀ k ∈ order, ∀ net, p.Networks.lookup k = some net →
      ∀ s, (R.NetworkExists net.Name s).1 = .ok (exists_ net.Name))
    (w : World σ) :
    (downNetworks R p order w).1 = .ok () ∧
      (downNetworks R p order w).2.trace = w.trace ++ networkCalls p exists_ order := by
  induction order generalizing w with
  | nil => simp [downNetworks, networkCalls]
  | cons k rest ih =>
    have hrest1 : ∀ x ∈ rest, p.Networks.lookup x ≠ none :=
      fun x hx => hkeys x (List.mem_cons_of_mem _ hx)
    have hrest2 : ∀ x ∈ rest, ∀ net, p.Networks.lookup x = some net →
        ∀ s, (R.NetworkExists net.Name s).1 = .ok (exists_ net.Name) :=
      fun x hx => hex x (List.mem_cons_of_mem _ hx)
    have hk := hkeys k (List.mem_cons_self _ _)
    have hans := hex k (List.mem_cons_self _ _)
    rcases downNetwork_cases R p k w with ⟨hl, _⟩ | ⟨net, hl, hx, hd⟩ |
      ⟨net, err, hl, hx, hr, _⟩ | ⟨net, hl, hx, hr, hd⟩ | ⟨net, hl, hx, hr, hd⟩
    · exact absurd hl hk
    · have hok : (downNetwork R p k w).1 = .ok () := by rw [hd]
      rw [downNetworks_cons_ok R p k rest w hok, hd]
      obtain ⟨ih1, ih2⟩ := ih hrest1 hrest2 w
      refine ⟨ih1, ?_⟩
      rw [ih2]
      simp [networkCalls, hl, hx]
    · rw [hans net hl w.state] at hr
      cases hr
    · have hok : (downNetwork R p k w).1 = .ok () := by rw [hd]
      rw [downNetworks_cons_ok R p k rest w hok, hd]
      obtain ⟨ih1, ih2⟩ := ih hrest1 hrest2 (callNetworkExists R net.Name w).2
      refine ⟨ih1, ?_⟩
      rw [hans net hl w.state] at hr
      have hb : exists_ net.Name = false := by
        injection hr
      rw [ih2]
      simp [networkCalls, hl, hx, hb, callNetworkExists]
    · have hok : (downNetwork R p k w).1 = .ok () := by rw [hd]
      rw [downNetworks_cons_ok R p k rest w hok, hd]
      obtain ⟨ih1, ih2⟩ := ih hrest1 hrest2
        (callRun R ["network", "rm", net.Name] (callNetworkExists R net.Name w).2).2
      refine ⟨ih1, ?_⟩
      rw [hans net hl w.state] at hr
      have hb : exists_ net.Name = true := by
        injection hr
      rw [ih2]
      simp [networkCalls, hl, hx, hb, callNetworkExists, callRun]

theorem downVolumes_of_answers (R : Runtime σ) (p : Project) (exists_ : String → Bool)
    (order : List String)
    (hkeys : ∀ k ∈ order, p.Volumes.lookup k ≠ none)
    (hex : ∀ k ∈ order, ∀ vol, p.Volumes.lookup k = some vol →
      ∀ s, (R.VolumeExists vol.Name s).1 = .ok (exists_ vol.Name))
    (w : World σ) :
    (downVolumes R p order w).1 = .ok () ∧
      (downVolumes R p order w).2.trace = w.trace ++ volumeCalls p exists_ order := by
  induction order generalizing w with
  | nil => simp [downVolumes, volumeCalls]
  | cons k rest ih =>
    have hrest1 : ∀ x ∈ rest, p.Volumes.lookup x ≠ none :=
      fun x hx => hkeys x (List.mem_cons_of_mem _ hx)
    have hrest2 : ∀ x ∈ rest, ∀ vol, p.Volumes.lookup x = some vol →
        ∀ s, (R.VolumeExists vol.Name s).1 = .ok (exists_ vol.Name) :=
      fun x hx => hex x (List.mem_cons_of_mem _ hx)
    have hk := hkeys k (List.mem_cons_self _ _)
    have hans := hex k (List.mem_cons_self _ _)
    rcases downVolume_cases R p k w with ⟨hl, _⟩ | ⟨vol, hl, hx, hd⟩ |
      ⟨vol, err, hl, hx, hr, _⟩ | ⟨vol, hl, hx, hr, hd⟩ | ⟨vol, hl, hx, hr, hd⟩
    · exact absurd hl hk
    · have hok : (downVolume R p k w).1 = .ok () := by rw [hd]
      rw [downVolumes_cons_ok R p k rest w hok, hd]
      obtain ⟨ih1, ih2⟩ := ih hrest1 hrest2 w
      refine ⟨ih1, ?_⟩
      rw [ih2]
      simp [volumeCalls, hl, hx]
    · rw [hans vol hl w.state] at hr
      cases hr
    · have hok : (downVolume R p k w).1 = .ok () := by rw [hd]
      rw [downVolumes_cons_ok R p k rest w hok, hd]
      obtain ⟨ih1, ih2⟩ := ih hrest1 hrest2 (callVolumeExists R vol.Name w).2
      refine ⟨ih1, ?_⟩
      rw [hans vol hl w.state] at hr
      have hb : exists_ vol.Name = false := by
        injection hr
      rw [ih2]
      simp [volumeCalls, hl, hx, hb, callVolumeExists]
    · have hok : (downVolume R p k w).1 = .ok () := by rw [hd]
      rw [downVolumes_cons_ok R p k rest w hok, hd]
      obtain ⟨ih1, ih2⟩ := ih hrest1 hrest2
        (callRun R ["volume", "rm", "-f", vol.Name] (callVolumeExists R vol.Name w).2).2
      refine ⟨ih1, ?_⟩
      rw [hans vol hl w.state] at hr
      have hb : exists_ vol.Name = true := by
        injection hr
      rw [ih2]
      simp [volumeCalls, hl, hx, hb, callVolumeExists, callRun]

/-! ## The shape of `Down` -/

theorem Down_names_error (R : Runtime σ) (p : Project) (o : DownOptions)
    (netOrder volOrder : List String) (s : σ) (err : ExtErr)
    (h : (R.ServiceNames s).1 = .error err) :
    Down R p o netOrder volOrder s
      = (.error (.collaborator err), (callServiceNames R ⟨s, []⟩).2) := by
  have hc : callServiceNames R ⟨s, []⟩ = (.error err, (callServiceNames R ⟨s, []⟩).2) := by
    simp [callServiceNames, h]
  rw [Down, hc]

theorem Down_services_error (R : Runtime σ) (p : Project) (o : DownOptions)
    (netOrder volOrder : List String) (s : σ) (names : List String) (err : Error)
    (h : (R.ServiceNames s).1 = .ok names)
    (hs : (downServices R (ReverseStrSlice names) o.RemoveVolumes
      (callServiceNames R ⟨s, []⟩).2).1 = .error err) :
    Down R p o netOrder volOrder s
      = (.error err, (downServices R (ReverseStrSlice names) o.RemoveVolumes
          (callServiceNames R ⟨s, []⟩).2).2) := by
  have hc : callServiceNames R ⟨s, []⟩ = (.ok names, (callServiceNames R ⟨s, []⟩).2) := by
    simp [callServiceNames, h]
  rw [Down, hc]
  simp only []
  generalize downServices R (ReverseStrSlice names) o.RemoveVolumes
    (callServiceNames R ⟨s, []⟩).2 = res at hs
  obtain ⟨r, w1⟩ := res
  simp only at hs
  subst hs
  rfl

theorem Down_services_ok (R : Runtime σ) (p : Project) (o : DownOptions)
    (netOrder volOrder : List String) (s : σ) (names : List String)
    (h : (R.ServiceNames s).1 = .ok names)
    (hs : (downServices R (ReverseStrSlice names) o.RemoveVolumes
      (callServiceNames R ⟨s, []⟩).2).1 = .ok ()) :
    Down R p o netOrder volOrder s
      = downResources R p o netOrder volOrder
          (downServices R (ReverseStrSlice names) o.RemoveVolumes
            (callServiceNames R ⟨s, []⟩).2).2 := by
  have hc : callServiceNames R ⟨s, []⟩ = (.ok names, (callServiceNames R ⟨s, []⟩).2) := by
    simp [callServiceNames, h]
  rw [Down, hc]
  simp only []
  generalize downServices R (ReverseStrSlice names) o.RemoveVolumes
    (callServiceNames R ⟨s, []⟩).2 = res at hs
  obtain ⟨r, w1⟩ := res
  simp only at hs
  subst hs
  rfl

theorem downResources_networks_error (R : Runtime σ) (p : Project) (o : DownOptions)
    (netOrder volOrder : List String) (w : World σ) (err : Error)
    (h : (downNetworks R p netOrder w).1 = .error err) :
    downResources R p o netOrder volOrder w = (.error err, (downNetworks R p netOrder w).2) := by
  rw [downResources]
  generalize downNetworks R p netOrder w = res at h
  obtain ⟨r, w1⟩ := res
  simp only at h
  subst h
  rfl

theorem downResources_networks_ok (R : Runtime σ) (p : Project) (o : DownOptions)
    (netOrder volOrder : List String) (w : World σ)
    (h : (downNetworks R p netOrder w).1 = .ok ()) :
    downResources R p o netOrder volOrder w
      = if o.RemoveVolumes then downVolumes R p volOrder (downNetworks R p netOrder w).2
        else (.ok (), (downNetworks R p netOrder w).2) := by
  rw [downResources]
  generalize downNetworks R p netOrder w = res at h
  obtain ⟨r, w1⟩ := res
  simp only at h
  subst h
  rfl

/-! ## Where the calls of a run come from -/

theorem downServices_ext (R : Runtime σ) (services : List String) (rv : Bool) (w : World σ) :
    ∃ ext, (downServices R services rv w).2.trace = w.trace ++ ext ∧
      ∀ c ∈ ext, ServiceCall rv c := by
  induction services generalizing w with
  | nil => exact ⟨[], by simp [downServices], by simp⟩
  | cons svc rest ih =>
    cases hr : (R.Containers svc w.state).1 with
    | error err =>
      rw [downServices_cons_error R svc rest rv w err hr]
      refine ⟨[Call.containers svc], by simp [callContainers], ?_⟩
      intro c hc
      simp only [List.mem_singleton] at hc
      exact Or.inl ⟨svc, hc⟩
    | ok cs =>
      rw [downServices_cons_ok R svc rest rv w cs hr]
      obtain ⟨ext, h1, h2⟩ := ih (downContainers R cs rv (callContainers R svc w).2).2
      refine ⟨Call.containers svc :: containerCalls rv cs ++ ext, ?_, ?_⟩
      · rw [h1, downContainers_trace]
        simp [callContainers]
      · intro c hc
        simp only [List.cons_append, List.mem_cons, List.mem_append] at hc
        rcases hc with hc | hc | hc
        · exact Or.inl ⟨svc, hc⟩
        · simp only [containerCalls, List.mem_flatMap, List.mem_cons, List.mem_singleton,
            List.not_mem_nil, or_false] at hc
          obtain ⟨x, _, hx⟩ := hc
          exact Or.inr ⟨x.ID, hx⟩
        · exact h2 c hc

theorem downNetwork_ext (R : Runtime σ) (p : Project) (k : String) (w : World σ) :
    ∃ ext, (downNetwork R p k w).2.trace = w.trace ++ ext ∧ ∀ c ∈ ext, NetworkCall p c := by
  rcases downNetwork_cases R p k w with ⟨_, hd⟩ | ⟨net, _, _, hd⟩ |
    ⟨net, err, hl, hx, _, hd⟩ | ⟨net, hl, hx, _, hd⟩ | ⟨net, hl, hx, _, hd⟩
  · exact ⟨[], by rw [hd]; simp, by simp⟩
  · exact ⟨[], by rw [hd]; simp, by simp⟩
  · refine ⟨[Call.networkExists net.Name], by rw [hd]; simp [callNetworkExists], ?_⟩
    intro c hc
    simp only [List.mem_singleton] at hc
    exact ⟨k, net, hl, hx, Or.inl hc⟩
  · refine ⟨[Call.networkExists net.Name], by rw [hd]; simp [callNetworkExists], ?_⟩
    intro c hc
    simp only [List.mem_singleton] at hc
    exact ⟨k, net, hl, hx, Or.inl hc⟩
  · refine ⟨[Call.networkExists net.Name, Call.run ["network", "rm", net.Name]],
      by rw [hd]; simp [callNetworkExists, callRun], ?_⟩
    intro c hc
    simp only [List.mem_cons, List.mem_singleton, List.not_mem_nil, or_false] at hc
    exact ⟨k, net, hl, hx, hc⟩

theorem downVolume_ext (R : Runtime σ) (p : Project) (k : String) (w : World σ) :
    ∃ ext, (downVolume R p k w).2.trace = w.trace ++ ext ∧ ∀ c ∈ ext, VolumeCall p c := by
  rcases downVolume_cases R p k w with ⟨_, hd⟩ | ⟨vol, _, _, hd⟩ |
    ⟨vol, err, hl, hx, _, hd⟩ | ⟨vol, hl, hx, _, hd⟩ | ⟨vol, hl, hx, _, hd⟩
  · exact ⟨[], by rw [hd]; simp, by simp⟩
  · exact ⟨[], by rw [hd]; simp, by simp⟩
  · refine ⟨[Call.volumeExists vol.Name], by rw [hd]; simp [callVolumeExists], ?_⟩
    intro c hc
    simp only [List.mem_singleton] at hc
    exact ⟨k, vol, hl, hx, Or.inl hc⟩
  · refine ⟨[Call.volumeExists vol.Name], by rw [hd]; simp [callVolumeExists], ?_⟩
    intro c hc
    simp only [List.mem_singleton] at hc
    exact ⟨k, vol, hl, hx, Or.inl hc⟩
  · refine ⟨[Call.volumeExists vol.Name, Call.run ["volume", "rm", "-f", vol.Name]],
      by rw [hd]; simp [callVolumeExists, callRun], ?_⟩
    intro c hc
    simp only [List.mem_cons, List.mem_singleton, List.not_mem_nil, or_false] at hc
    exact ⟨k, vol, hl, hx, hc⟩

theorem downNetworks_ext (R : Runtime σ) (p : Project) (order : List String) (w : World σ) :
    ∃ ext, (downNetworks R p order w).2.trace = w.trace ++ ext ∧
      ∀ c ∈ ext, NetworkCall p c := by
  induction order generalizing w with
  | nil => exact ⟨[], by simp [downNetworks], by simp⟩
  | cons k rest ih =>
    obtain ⟨e1, h1, h2⟩ := downNetwork_ext R p k w
    cases hr : (downNetwork R p k w).1 with
    | error err =>
      rw [downNetworks_cons_error R p k rest w err hr]
      exact ⟨e1, h1, h2⟩
    | ok u =>
      rw [downNetworks_cons_ok R p k rest w hr]
      obtain ⟨e2, h3, h4⟩ := ih (downNetwork R p k w).2
      refine ⟨e1 ++ e2, by rw [h3, h1, List.append_assoc], ?_⟩
      intro c hc
      rcases List.mem_append.1 hc with hc | hc
      · exact h2 c hc
      · exact h4 c hc

theorem downVolumes_ext (R : Runtime σ) (p : Project) (order : List String) (w : World σ) :
    ∃ ext, (downVolumes R p order w).2.trace = w.trace ++ ext ∧
      ∀ c ∈ ext, VolumeCall p c := by
  induction order generalizing w with
  | nil => exact ⟨[], by simp [downVolumes], by simp⟩
  | cons k rest ih =>
    obtain ⟨e1, h1, h2⟩ := downVolume_ext R p k w
    cases hr : (downVolume R p k w).1 with
    | error err =>
      rw [downVolumes_cons_error R p k rest w err hr]
      exact ⟨e1, h1, h2⟩
    | ok u =>
      rw [downVolumes_cons_ok R p k rest w hr]
      obtain ⟨e2, h3, h4⟩ := ih (downVolume R p k w).2
      refine ⟨e1 ++ e2, by rw [h3, h1, List.append_assoc], ?_⟩
      intro c hc
      rcases List.mem_append.1 hc with hc | hc
      · exact h2 c hc
      · exact h4 c hc

theorem downResources_ext (R : Runtime σ) (p : Project) (o : DownOptions)
    (netOrder volOrder : List String) (w : World σ) :
    ∃ ext, (downResources R p o netOrder volOrder w).2.trace = w.trace ++ ext ∧
      ∀ c ∈ ext, NetworkCall p c ∨ (o.RemoveVolumes = true ∧ VolumeCall p c) := by
  obtain ⟨e1, h1, h2⟩ := downNetworks_ext R p netOrder w
  cases hr : (downNetworks R p netOrder w).1 with
  | error err =>
    rw [downResources_networks_error R p o netOrder volOrder w err hr]
    exact ⟨e1, h1, fun c hc => Or.inl (h2 c hc)⟩
  | ok u =>
    rw [downResources_networks_ok R p o netOrder volOrder w hr]
    cases hv : o.RemoveVolumes with
    | false =>
      simp only [Bool.false_eq_true, if_false]
      exact ⟨e1, h1, fun c hc => Or.inl (h2 c hc)⟩
    | true =>
      simp only [if_true]
      obtain ⟨e2, h3, h4⟩ := downVolumes_ext R p volOrder (downNetworks R p netOrder w).2
      refine ⟨e1 ++ e2, by rw [h3, h1, List.append_assoc], ?_⟩
      intro c hc
      rcases List.mem_append.1 hc with hc | hc
      · exact Or.inl (h2 c hc)
      · exact Or.inr ⟨by simp, h4 c hc⟩

/-- Every call of a run of `Down` after the first is a call of the service
loop, a call for a declared non-external network, or, when `RemoveVolumes` is
set, a call for a declared non-external volume. -/
theorem Down_ext (R : Runtime σ) (p : Project) (o : DownOptions)
    (netOrder volOrder : List String) (s : σ) :
    ∃ ext, (Down R p o netOrder volOrder s).2.trace = Call.serviceNames :: ext ∧
      ∀ c ∈ ext, ServiceCall o.RemoveVolumes c ∨ NetworkCall p c ∨
        (o.RemoveVolumes = true ∧ VolumeCall p c) := by
  cases hn : (R.ServiceNames s).1 with
  | error err =>
    rw [Down_names_error R p o netOrder volOrder s err hn]
    exact ⟨[], by simp [callServiceNames], by simp⟩
  | ok names =>
    obtain ⟨e1, h1, h2⟩ := downServices_ext R (ReverseStrSlice names) o.RemoveVolumes
      (callServiceNames R ⟨s, []⟩).2
    cases hs : (downServices R (ReverseStrSlice names) o.RemoveVolumes
        (callServiceNames R ⟨s, []⟩).2).1 with
    | error err =>
      rw [Down_services_error R p o netOrder volOrder s names err hn hs]
      exact ⟨e1, by rw [h1]; simp [callServiceNames], fun c hc => Or.inl (h2 c hc)⟩
    | ok u =>
      rw [Down_services_ok R p o netOrder volOrder s names hn hs]
      obtain ⟨e2, h3, h4⟩ := downResources_ext R p o netOrder volOrder
        (downServices R (ReverseStrSlice names) o.RemoveVolumes
          (callServiceNames R ⟨s, []⟩).2).2
      refine ⟨e1 ++ e2, by rw [h3, h1]; simp [callServiceNames], ?_⟩
      intro c hc
      rcases List.mem_append.1 hc with hc | hc
      · exact Or.inl (h2 c hc)
      · exact Or.inr (h4 c hc)

/-! ## Reading removal commands off the calls -/

theorem removals_append (a b : List Call) : removals (a ++ b) = removals a ++ removals b := by
  simp [removals]

theorem containerRemovalIDs_append (a b : List Call) :
    containerRemovalIDs (a ++ b) = containerRemovalIDs a ++ containerRemovalIDs b := by
  simp [containerRemovalIDs, removals_append]

theorem containerRemovalID_containerRmArgs (rv : Bool) (id : String) :
    containerRemovalID (containerRmArgs rv id) = some id := by
  cases rv <;> simp [containerRemovalID, containerRmArgs]

theorem removals_containerCalls (rv : Bool) (cs : List Container) :
    removals (containerCalls rv cs) = cs.map fun c => containerRmArgs rv c.ID := by
  induction cs with
  | nil => rfl
  | cons c rest ih =>
    have h : containerCalls rv (c :: rest)
        = [Call.containerInfo c.ID, Call.run (containerRmArgs rv c.ID)]
          ++ containerCalls rv rest := by
      simp [containerCalls]
    rw [h, removals_append, ih]
    simp [removals]

theorem removals_serviceCalls (rv : Bool) (assign : String → List Container)
    (services : List String) :
    removals (serviceCalls rv assign services)
      = (services.flatMap assign).map fun c => containerRmArgs rv c.ID := by
  induction services with
  | nil => rfl
  | cons svc rest ih =>
    have h : serviceCalls rv assign (svc :: rest)
        = [Call.containers svc] ++ (containerCalls rv (assign svc)
          ++ serviceCalls rv assign rest) := by
      simp [serviceCalls]
    rw [h, removals_append, removals_append, ih, removals_containerCalls]
    simp [removals]

theorem containerRemovalIDs_serviceCalls (rv : Bool) (assign : String → List Container)
    (services : List String) :
    containerRemovalIDs (serviceCalls rv assign services)
      = (services.flatMap assign).map Container.ID := by
  rw [containerRemovalIDs, removals_serviceCalls, List.filterMap_map]
  rw [List.filterMap_congr (g := fun c => some (Container.ID c))
    (fun c _ => by simp [containerRemovalID_containerRmArgs])]
  exact congrFun (List.filterMap_eq_map Container.ID) _

theorem containerRemovalIDs_resources (p : Project) (ext : List Call)
    (h : ∀ c ∈ ext, NetworkCall p c ∨ VolumeCall p c) : containerRemovalIDs ext = [] := by
  induction ext with
  | nil => rfl
  | cons c rest ih =>
    have hrest := ih fun x hx => h x (List.mem_cons_of_mem _ hx)
    have hsplit : containerRemovalIDs (c :: rest)
        = containerRemovalIDs [c] ++ containerRemovalIDs rest :=
      containerRemovalIDs_append [c] rest
    rw [hsplit, hrest]
    rcases h c (List.mem_cons_self _ _) with ⟨k, net, _, _, hc | hc⟩ | ⟨k, vol, _, _, hc | hc⟩ <;>
      subst hc <;> simp [containerRemovalIDs, removals, containerRemovalID]

/-! ## C1: reverse service order -/

/-- C1: when the service list is obtained as `names` and every container lookup
succeeds with `assign`, the container IDs passed to container-removal commands
by `Down` are the containers of the services in the reverse of the supplied
order, each service's containers in the order the lookup returned them. -/
theorem Down_container_removals_reverse_order (R : Runtime σ) (p : Project) (o : DownOptions)
    (netOrder volOrder : List String) (s : σ) (names : List String)
    (assign : String → List Container)
    (hnames : (R.ServiceNames s).1 = .ok names)
    (hlook : ∀ svc s', (R.Containers svc s').1 = .ok (assign svc)) :
    containerRemovalIDs (Down R p o netOrder volOrder s).2.trace
      = (names.reverse.flatMap assign).map Container.ID := by
  obtain ⟨hs1, hs2⟩ := downServices_of_lookups R assign (ReverseStrSlice names) o.RemoveVolumes
    (fun svc _ => hlook svc) (callServiceNames R ⟨s, []⟩).2
  rw [Down_services_ok R p o netOrder volOrder s names hnames hs1]
  obtain ⟨ext, h1, h2⟩ := downResources_ext R p o netOrder volOrder
    (downServices R (ReverseStrSlice names) o.RemoveVolumes (callServiceNames R ⟨s, []⟩).2).2
  have hext : containerRemovalIDs ext = [] :=
    containerRemovalIDs_resources p ext fun c hc => (h2 c hc).imp id And.right
  rw [h1, hs2, containerRemovalIDs_append, containerRemovalIDs_append, hext,
    containerRemovalIDs_serviceCalls]
  simp [callServiceNames, containerRemovalIDs, removals, ReverseStrSlice]

/-- C1 at services `[A, B, C]`: the removals are for the containers of `C`,
then `B`, then `A`. -/
theorem Down_container_removals_reverse_order_witness :
    (abcRuntime.ServiceNames 0).1 = .ok ["A", "B", "C"] ∧
    (∀ svc s', (abcRuntime.Containers svc s').1 = .ok (abcContainers svc)) ∧
    containerRemovalIDs (Down abcRuntime ⟨[], []⟩ ⟨false⟩ [] [] 0).2.trace
      = ["c1", "c2", "b1", "a1"] :=
  ⟨rfl, fun _ _ => rfl,
    (Down_container_removals_reverse_order abcRuntime ⟨[], []⟩ ⟨false⟩ [] [] 0 ["A", "B", "C"]
      abcContainers rfl (fun _ _ => rfl)).trans (by decide)⟩

/-! ## C4: volumes are kept unless asked for -/

theorem mem_removals (args : List String) (trace : List Call) :
    args ∈ removals trace ↔ Call.run args ∈ trace := by
  simp only [removals, List.mem_filterMap]
  constructor
  · rintro ⟨c, hc, h⟩
    cases c <;> simp at h
    subst h
    exact hc
  · intro h
    exact ⟨Call.run args, h, rfl⟩

/-- The removal commands of a run of `Down` are container removals, removals of
a declared non-external network, or, when `RemoveVolumes` is set, removals of a
declared non-external volume. -/
theorem Down_removals_origin (R : Runtime σ) (p : Project) (o : DownOptions)
    (netOrder volOrder : List String) (s : σ) (args : List String)
    (h : args ∈ removals (Down R p o netOrder volOrder s).2.trace) :
    (∃ id, args = containerRmArgs o.RemoveVolumes id) ∨
    (∃ k net, p.Networks.lookup k = some net ∧ net.External.External = false ∧
      args = ["network", "rm", net.Name]) ∨
    (o.RemoveVolumes = true ∧ ∃ k vol, p.Volumes.lookup k = some vol ∧
      vol.External.External = false ∧ args = ["volume", "rm", "-f", vol.Name]) := by
  rw [mem_removals] at h
  obtain ⟨ext, h1, h2⟩ := Down_ext R p o netOrder volOrder s
  rw [h1] at h
  simp only [List.mem_cons] at h
  rcases h with h | h
  · cases h
  · rcases h2 _ h with hc | hc | ⟨hv, hc⟩
    · rcases hc with ⟨svc, hc⟩ | ⟨id, hc | hc⟩
      · cases hc
      · cases hc
      · exact Or.inl ⟨id, by injection hc⟩
    · obtain ⟨k, net, hl, hx, hc | hc⟩ := hc
      · cases hc
      · exact Or.inr (Or.inl ⟨k, net, hl, hx, by injection hc⟩)
    · obtain ⟨k, vol, hl, hx, hc | hc⟩ := hc
      · cases hc
      · exact Or.inr (Or.inr ⟨hv, k, vol, hl, hx, by injection hc⟩)

/-- C4: a run of `Down` with `RemoveVolumes = false` issues no `volume rm`
command, whatever the project, the collaborators and the orders of the two
`range` loops are. -/
theorem Down_keeps_volumes (R : Runtime σ) (p : Project) (netOrder volOrder : List String)
    (s : σ) :
    (removals (Down R p ⟨false⟩ netOrder volOrder s).2.trace).filter isVolumeRemoval = [] := by
  rw [List.filter_eq_nil_iff]
  intro args hargs
  rcases Down_removals_origin R p ⟨false⟩ netOrder volOrder s args hargs with
    ⟨id, h⟩ | ⟨k, net, _, _, h⟩ | ⟨hv, _⟩
  · subst h
    simp [isVolumeRemoval, containerRmArgs]
  · subst h
    simp [isVolumeRemoval]
  · cases hv

/-! ## C3: external resources -/

/-- C3 as stated fails: the network entry `a` is external with full name
`shared`, and a run of `Down` issues `network rm shared` (for the entry `b`,
which has the same full name and is not external). -/
theorem external_full_name_named_by_removal :
    sharedNameProject.Networks.lookup "a" = some ⟨"shared", ⟨true⟩⟩ ∧
    RangeOrder sharedNameProject.Networks ["a", "b"] ∧
    ["network", "rm", "shared"] ∈
      removals (Down allPresentRuntime sharedNameProject ⟨false⟩ ["a", "b"] [] 0).2.trace := by
  decide

/-- C3, amended: for an entry whose external flag is set, `downNetwork` and
`downVolume` return success and make no call at all (no existence check, no
removal), whatever the collaborators would answer; and every `network rm` or
`volume rm` command of a run of `Down` names the full name of a declared entry
of that kind whose external flag is not set. -/
theorem external_entries_trigger_no_removal (R : Runtime σ) (p : Project) (o : DownOptions)
    (netOrder volOrder : List String) (s : σ) :
    (∀ k net w, p.Networks.lookup k = some net → net.External.External = true →
      downNetwork R p k w = (.ok (), w)) ∧
    (∀ k vol w, p.Volumes.lookup k = some vol → vol.External.External = true →
      downVolume R p k w = (.ok (), w)) ∧
    (∀ args ∈ removals (Down R p o netOrder volOrder s).2.trace, isNetworkRemoval args = true →
      ∃ k net, p.Networks.lookup k = some net ∧ net.External.External = false ∧
        args = ["network", "rm", net.Name]) ∧
    (∀ args ∈ removals (Down R p o netOrder volOrder s).2.trace, isVolumeRemoval args = true →
      ∃ k vol, p.Volumes.lookup k = some vol ∧ vol.External.External = false ∧
        args = ["volume", "rm", "-f", vol.Name]) := by
  refine ⟨fun k net w hl hx => downNetwork_external R p k w net hl hx,
    fun k vol w hl hx => downVolume_external R p k w vol hl hx, ?_, ?_⟩
  · intro args hargs hrm
    rcases Down_removals_origin R p o netOrder volOrder s args hargs with
      ⟨id, h⟩ | h | ⟨_, k, vol, _, _, h⟩
    · subst h
      cases hv : o.RemoveVolumes <;> simp [isNetworkRemoval, containerRmArgs, hv] at hrm
    · exact h
    · subst h
      simp [isNetworkRemoval] at hrm
  · intro args hargs hrm
    rcases Down_removals_origin R p o netOrder volOrder s args hargs with
      ⟨id, h⟩ | ⟨k, net, _, _, h⟩ | ⟨_, h⟩
    · subst h
      cases hv : o.RemoveVolumes <;> simp [isVolumeRemoval, containerRmArgs, hv] at hrm
    · subst h
      simp [isVolumeRemoval] at hrm
    · exact h

/-- C3, amended, on the project with the shared full name: the external entry
`a` is skipped without a call, and the one `network rm` command issued is
accounted for by a non-external entry. -/
theorem external_entries_trigger_no_removal_witness :
    downNetwork allPresentRuntime sharedNameProject "a" ⟨0, []⟩ = (.ok (), ⟨0, []⟩) ∧
    ∃ k net, sharedNameProject.Networks.lookup k = some net ∧ net.External.External = false ∧
      ["network", "rm", "shared"] = ["network", "rm", net.Name] :=
  ⟨(external_entries_trigger_no_removal allPresentRuntime sharedNameProject ⟨false⟩
      ["a", "b"] [] 0).1 "a" ⟨"shared", ⟨true⟩⟩ ⟨0, []⟩ (by decide) rfl,
    (external_entries_trigger_no_removal allPresentRuntime sharedNameProject ⟨false⟩
      ["a", "b"] [] 0).2.2.1 ["network", "rm", "shared"] (by decide) (by decide)⟩

/-! ## Where an error of `Down` comes from -/

theorem downServices_error_source (R : Runtime σ) (services : List String) (rv : Bool)
    (w : World σ) (e : Error) (h : (downServices R services rv w).1 = .error e) :
    ∃ svc ∈ services, ∃ s' err, (R.Containers svc s').1 = .error err ∧ e = .collaborator err := by
  induction services generalizing w with
  | nil => simp [downServices] at h
  | cons svc rest ih =>
    cases hr : (R.Containers svc w.state).1 with
    | error err =>
      rw [downServices_cons_error R svc rest rv w err hr] at h
      simp only [Except.error.injEq] at h
      exact ⟨svc, List.mem_cons_self _ _, w.state, err, hr, h.symm⟩
    | ok cs =>
      rw [downServices_cons_ok R svc rest rv w cs hr] at h
      obtain ⟨x, hx, rest'⟩ := ih _ h
      exact ⟨x, List.mem_cons_of_mem _ hx, rest'⟩

theorem downNetworks_error_source (R : Runtime σ) (p : Project) (order : List String)
    (w : World σ) (e : Error) (h : (downNetworks R p order w).1 = .error e) :
    (∃ k ∈ order, ∃ net s' err, p.Networks.lookup k = some net ∧
      net.External.External = false ∧ (R.NetworkExists net.Name s').1 = .error err ∧
      e = .collaborator err) ∨
    (∃ k ∈ order, p.Networks.lookup k = none ∧ e = .invalidNetworkName k) := by
  induction order generalizing w with
  | nil => simp [downNetworks] at h
  | cons k rest ih =>
    cases hr : (downNetwork R p k w).1 with
    | ok u =>
      rw [downNetworks_cons_ok R p k rest w hr] at h
      rcases ih _ h with ⟨x, hx, rest'⟩ | ⟨x, hx, rest'⟩
      · exact Or.inl ⟨x, List.mem_cons_of_mem _ hx, rest'⟩
      · exact Or.inr ⟨x, List.mem_cons_of_mem _ hx, rest'⟩
    | error err =>
      rw [downNetworks_cons_error R p k rest w err hr] at h
      simp only [Except.error.injEq] at h
      subst h
      rcases downNetwork_cases R p k w with ⟨hl, hd⟩ | ⟨net, _, _, hd⟩ |
        ⟨net, err', hl, hx, hc, hd⟩ | ⟨net, _, _, _, hd⟩ | ⟨net, _, _, _, hd⟩
      · rw [hd] at hr
        simp only [Except.error.injEq] at hr
        exact Or.inr ⟨k, List.mem_cons_self _ _, hl, hr.symm⟩
      · rw [hd] at hr; cases hr
      · rw [hd] at hr
        simp only [Except.error.injEq] at hr
        exact Or.inl ⟨k, List.mem_cons_self _ _, net, w.state, err', hl, hx, hc, hr.symm⟩
      · rw [hd] at hr; cases hr
      · rw [hd] at hr; cases hr

theorem downVolumes_error_source (R : Runtime σ) (p : Project) (order : List String)
    (w : World σ) (e : Error) (h : (downVolumes R p order w).1 = .error e) :
    (∃ k ∈ order, ∃ vol s' err, p.Volumes.lookup k = some vol ∧
      vol.External.External = false ∧ (R.VolumeExists vol.Name s').1 = .error err ∧
      e = .collaborator err) ∨
    (∃ k ∈ order, p.Volumes.lookup k = none ∧ e = .invalidVolumeName k) := by
  induction order generalizing w with
  | nil => simp [downVolumes] at h
  | cons k rest ih =>
    cases hr : (downVolume R p k w).1 with
    | ok u =>
      rw [downVolumes_cons_ok R p k rest w hr] at h
      rcases ih _ h with ⟨x, hx, rest'⟩ | ⟨x, hx, rest'⟩
      · exact Or.inl ⟨x, List.mem_cons_of_mem _ hx, rest'⟩
      · exact Or.inr ⟨x, List.mem_cons_of_mem _ hx, rest'⟩
    | error err =>
      rw [downVolumes_cons_error R p k rest w err hr] at h
      simp only [Except.error.injEq] at h
      subst h
      rcases downVolume_cases R p k w with ⟨hl, hd⟩ | ⟨vol, _, _, hd⟩ |
        ⟨vol, err', hl, hx, hc, hd⟩ | ⟨vol, _, _, _, hd⟩ | ⟨vol, _, _, _, hd⟩
      · rw [hd] at hr
        simp only [Except.error.injEq] at hr
        exact Or.inr ⟨k, List.mem_cons_self _ _, hl, hr.symm⟩
      · rw [hd] at hr; cases hr
      · rw [hd] at hr
        simp only [Except.error.injEq] at hr
        exact Or.inl ⟨k, List.mem_cons_self _ _, vol, w.state, err', hl, hx, hc, hr.symm⟩
      · rw [hd] at hr; cases hr
      · rw [hd] at hr; cases hr

/-- Every error returned by `Down` is the error of a failed `ServiceNames`, of
a failed container lookup, of a failed existence check for a declared
non-external network or volume, or one of the two unknown-name errors. -/
theorem Down_error_cases (R : Runtime σ) (p : Project) (o : DownOptions)
    (netOrder volOrder : List String) (s : σ) (e : Error)
    (h : (Down R p o netOrder volOrder s).1 = .error e) :
    (∃ err, (R.ServiceNames s).1 = .error err ∧ e = .collaborator err) ∨
    (∃ names, (R.ServiceNames s).1 = .ok names ∧ ∃ svc ∈ names, ∃ s' err,
      (R.Containers svc s').1 = .error err ∧ e = .collaborator err) ∨
    (∃ k ∈ netOrder, ∃ net s' err, p.Networks.lookup k = some net ∧
      net.External.External = false ∧ (R.NetworkExists net.Name s').1 = .error err ∧
      e = .collaborator err) ∨
    (o.RemoveVolumes = true ∧ ∃ k ∈ volOrder, ∃ vol s' err, p.Volumes.lookup k = some vol ∧
      vol.External.External = false ∧ (R.VolumeExists vol.Name s').1 = .error err ∧
      e = .collaborator err) ∨
    (∃ k ∈ netOrder, p.Networks.lookup k = none ∧ e = .invalidNetworkName k) ∨
    (o.RemoveVolumes = true ∧ ∃ k ∈ volOrder, p.Volumes.lookup k = none ∧
      e = .invalidVolumeName k) := by
  cases hn : (R.ServiceNames s).1 with
  | error err =>
    rw [Down_names_error R p o netOrder volOrder s err hn] at h
    simp only [Except.error.injEq] at h
    exact Or.inl ⟨err, rfl, h.symm⟩
  | ok names =>
    right
    cases hs : (downServices R (ReverseStrSlice names) o.RemoveVolumes
        (callServiceNames R ⟨s, []⟩).2).1 with
    | error err =>
      rw [Down_services_error R p o netOrder volOrder s names err hn hs] at h
      simp only [Except.error.injEq] at h
      subst h
      obtain ⟨svc, hsvc, rest⟩ := downServices_error_source R _ _ _ _ hs
      exact Or.inl ⟨names, rfl, svc, by simpa [ReverseStrSlice] using hsvc, rest⟩
    | ok u =>
      right
      rw [Down_services_ok R p o netOrder volOrder s names hn hs] at h
      cases hnet : (downNetworks R p netOrder (downServices R (ReverseStrSlice names)
          o.RemoveVolumes (callServiceNames R ⟨s, []⟩).2).2).1 with
      | error err =>
        rw [downResources_networks_error R p o netOrder volOrder _ err hnet] at h
        simp only [Except.error.injEq] at h
        subst h
        rcases downNetworks_error_source R p netOrder _ _ hnet with h1 | h1
        · exact Or.inl h1
        · exact Or.inr (Or.inr (Or.inl h1))
      | ok u =>
        rw [downResources_networks_ok R p o netOrder volOrder _ hnet] at h
        cases hv : o.RemoveVolumes with
        | false => simp [hv] at h
        | true =>
          simp only [hv, if_true] at h
          rcases downVolumes_error_source R p volOrder _ _ h with h1 | h1
          · exact Or.inr (Or.inl ⟨rfl, h1⟩)
          · exact Or.inr (Or.inr (Or.inr ⟨rfl, h1⟩))

/-! ## Keys visited by `range` -/

theorem lookup_of_mem_keys {β : Type} (m : List (String × β)) (k : String) (h : k ∈ keys m) :
    ∃ v, m.lookup k = some v := by
  have hk : k ∈ m.map Prod.fst := by
    simpa [keys] using h
  clear h
  induction m with
  | nil => simp at hk
  | cons kv rest ih =>
    obtain ⟨a, b⟩ := kv
    by_cases hka : k = a
    · subst hka
      exact ⟨b, by simp [List.lookup]⟩
    · have hne : (k == a) = false := by simpa using hka
      have hk' : k ∈ rest.map Prod.fst := by
        simp only [List.map_cons, List.mem_cons] at hk
        rcases hk with hk | hk
        · exact absurd hk hka
        · exact hk
      obtain ⟨v, hv⟩ := ih hk'
      exact ⟨v, by simp [List.lookup, hne, hv]⟩

theorem RangeOrder.lookup_ne_none {β : Type} {m : List (String × β)} {order : List String}
    (h : RangeOrder m order) : ∀ k ∈ order, m.lookup k ≠ none := by
  intro k hk hnone
  obtain ⟨v, hv⟩ := lookup_of_mem_keys m k ((List.Perm.mem_iff h).1 hk)
  rw [hv] at hnone
  cases hnone

/-! ## C6: the errors `Down` returns -/

/-- C6 as stated fails: the service list is obtained, every container lookup
succeeds and every short name visited is a key of its mapping, yet `Down`
returns the error reported by the network existence check. -/
theorem Down_returns_existence_check_error :
    (checkFailsRuntime.ServiceNames 0).1 = .ok ["db", "web"] ∧
    (∀ svc s, (checkFailsRuntime.Containers svc s).1 = .ok (webContainers svc)) ∧
    RangeOrder webProject.Networks ["default"] ∧
    RangeOrder webProject.Volumes ["data"] ∧
    (Down checkFailsRuntime webProject ⟨true⟩ ["default"] ["data"] 0).1
      = .error (.collaborator "network inspect failed") :=
  ⟨rfl, fun _ _ => rfl, by decide, by decide, rfl⟩

/-- C6, amended: `Down` returns an error only when obtaining the service list
failed, a container lookup of a listed service failed, the existence check of
a declared non-external network (or, with `RemoveVolumes`, volume) reported an
error, or a visited short name is not a key of its mapping; the error returned
is that failure.  A failed removal command is none of these causes. -/
theorem Down_error_only_from (R : Runtime σ) (p : Project) (o : DownOptions)
    (netOrder volOrder : List String) (s : σ) (e : Error)
    (h : (Down R p o netOrder volOrder s).1 = .error e) :
    (∃ err, (R.ServiceNames s).1 = .error err ∧ e = .collaborator err) ∨
    (∃ names, (R.ServiceNames s).1 = .ok names ∧ ∃ svc ∈ names, ∃ s' err,
      (R.Containers svc s').1 = .error err ∧ e = .collaborator err) ∨
    (∃ k ∈ netOrder, ∃ net s' err, p.Networks.lookup k = some net ∧
      net.External.External = false ∧ (R.NetworkExists net.Name s').1 = .error err ∧
      e = .collaborator err) ∨
    (o.RemoveVolumes = true ∧ ∃ k ∈ volOrder, ∃ vol s' err, p.Volumes.lookup k = some vol ∧
      vol.External.External = false ∧ (R.VolumeExists vol.Name s').1 = .error err ∧
      e = .collaborator err) ∨
    (∃ k ∈ netOrder, p.Networks.lookup k = none ∧ e = .invalidNetworkName k) ∨
    (o.RemoveVolumes = true ∧ ∃ k ∈ volOrder, p.Volumes.lookup k = none ∧
      e = .invalidVolumeName k) :=
  Down_error_cases R p o netOrder volOrder s e h

/-- C6, amended, at the run whose network existence check fails: the error
returned is accounted for by one of the listed causes. -/
theorem Down_error_only_from_witness :
    (Down checkFailsRuntime webProject ⟨true⟩ ["default"] ["data"] 0).1
      = .error (.collaborator "network inspect failed") ∧
    ((∃ err, (checkFailsRuntime.ServiceNames 0).1 = .error err ∧
        Error.collaborator "network inspect failed" = .collaborator err) ∨
    (∃ names, (checkFailsRuntime.ServiceNames 0).1 = .ok names ∧ ∃ svc ∈ names, ∃ s' err,
      (checkFailsRuntime.Containers svc s').1 = .error err ∧
        Error.collaborator "network inspect failed" = .collaborator err) ∨
    (∃ k ∈ ["default"], ∃ net s' err, webProject.Networks.lookup k = some net ∧
      net.External.External = false ∧
      (checkFailsRuntime.NetworkExists net.Name s').1 = .error err ∧
      Error.collaborator "network inspect failed" = .collaborator err) ∨
    (DownOptions.RemoveVolumes ⟨true⟩ = true ∧ ∃ k ∈ ["data"], ∃ vol s' err,
      webProject.Volumes.lookup k = some vol ∧
      vol.External.External = false ∧
      (checkFailsRuntime.VolumeExists vol.Name s').1 = .error err ∧
      Error.collaborator "network inspect failed" = .collaborator err) ∨
    (∃ k ∈ ["default"], webProject.Networks.lookup k = none ∧
      Error.collaborator "network inspect failed" = .invalidNetworkName k) ∨
    (DownOptions.RemoveVolumes ⟨true⟩ = true ∧ ∃ k ∈ ["data"],
      webProject.Volumes.lookup k = none ∧
      Error.collaborator "network inspect failed" = .invalidVolumeName k)) :=
  ⟨rfl, Down_error_only_from checkFailsRuntime webProject ⟨true⟩ ["default"] ["data"] 0
    (.collaborator "network inspect failed") rfl⟩

/-! ## C10: the unknown-name branch cannot be reached from `Down` -/

/-- C10: when the two `range` loops visit keys of the project's mappings, every
short name passed to `downNetwork` (resp. `downVolume`) is a key of the network
(resp. volume) mapping, and `Down` returns neither an invalid-network-name nor
an invalid-volume-name error. -/
theorem Down_never_invalid_name (R : Runtime σ) (p : Project) (o : DownOptions)
    (netOrder volOrder : List String) (s : σ)
    (hnet : RangeOrder p.Networks netOrder) (hvol : RangeOrder p.Volumes volOrder) :
    (∀ k ∈ netOrder, ∃ net, p.Networks.lookup k = some net) ∧
    (∀ k ∈ volOrder, ∃ vol, p.Volumes.lookup k = some vol) ∧
    ∀ k, (Down R p o netOrder volOrder s).1 ≠ .error (.invalidNetworkName k) ∧
      (Down R p o netOrder volOrder s).1 ≠ .error (.invalidVolumeName k) := by
  have h1 : ∀ k ∈ netOrder, ∃ net, p.Networks.lookup k = some net := fun k hk =>
    lookup_of_mem_keys p.Networks k ((List.Perm.mem_iff hnet).1 hk)
  have h2 : ∀ k ∈ volOrder, ∃ vol, p.Volumes.lookup k = some vol := fun k hk =>
    lookup_of_mem_keys p.Volumes k ((List.Perm.mem_iff hvol).1 hk)
  refine ⟨h1, h2, fun k => ⟨?_, ?_⟩⟩
  · intro h
    rcases Down_error_cases R p o netOrder volOrder s _ h with
      ⟨_, _, he⟩ | ⟨_, _, _, _, _, _, _, he⟩ | ⟨_, _, _, _, _, _, _, _, he⟩ |
      ⟨_, _, _, _, _, _, _, _, _, he⟩ | ⟨x, hx, hl, _⟩ | ⟨_, _, _, _, he⟩
    · cases he
    · cases he
    · cases he
    · cases he
    · obtain ⟨net, hnet'⟩ := h1 x hx
      rw [hnet'] at hl
      cases hl
    · cases he
  · intro h
    rcases Down_error_cases R p o netOrder volOrder s _ h with
      ⟨_, _, he⟩ | ⟨_, _, _, _, _, _, _, he⟩ | ⟨_, _, _, _, _, _, _, _, he⟩ |
      ⟨_, _, _, _, _, _, _, _, _, he⟩ | ⟨_, _, _, he⟩ | ⟨_, x, hx, hl, _⟩
    · cases he
    · cases he
    · cases he
    · cases he
    · cases he
    · obtain ⟨vol, hvol'⟩ := h2 x hx
      rw [hvol'] at hl
      cases hl

/-- C10 at the project with network `default` and volume `data`. -/
theorem Down_never_invalid_name_witness :
    RangeOrder webProject.Networks ["default"] ∧ RangeOrder webProject.Volumes ["data"] ∧
    (∀ k ∈ ["default"], ∃ net, webProject.Networks.lookup k = some net) ∧
    (∀ k ∈ ["data"], ∃ vol, webProject.Volumes.lookup k = some vol) ∧
    ∀ k, (Down checkFailsRuntime webProject ⟨true⟩ ["default"] ["data"] 0).1
        ≠ .error (.invalidNetworkName k) ∧
      (Down checkFailsRuntime webProject ⟨true⟩ ["default"] ["data"] 0).1
        ≠ .error (.invalidVolumeName k) :=
  ⟨by decide, by decide,
    Down_never_invalid_name checkFailsRuntime webProject ⟨true⟩ ["default"] ["data"] 0
      (by decide) (by decide)⟩

/-! ## C9: structural errors stop the pass -/

theorem Down_of_servicePhase_ok (R : Runtime σ) (p : Project) (o : DownOptions)
    (netOrder volOrder : List String) (s : σ) (h : (servicePhase R o s).1 = .ok ()) :
    Down R p o netOrder volOrder s
      = downResources R p o netOrder volOrder (servicePhase R o s).2 := by
  cases hn : (R.ServiceNames s).1 with
  | error err =>
    have hc : callServiceNames R ⟨s, []⟩ = (.error err, (callServiceNames R ⟨s, []⟩).2) := by
      simp [callServiceNames, hn]
    rw [servicePhase, hc] at h
    cases h
  | ok names =>
    have hc : callServiceNames R ⟨s, []⟩ = (.ok names, (callServiceNames R ⟨s, []⟩).2) := by
      simp [callServiceNames, hn]
    have hp : servicePhase R o s
        = downServices R (ReverseStrSlice names) o.RemoveVolumes
            (callServiceNames R ⟨s, []⟩).2 := by
      rw [servicePhase, hc]
    rw [hp] at h ⊢
    exact Down_services_ok R p o netOrder volOrder s names hn h

theorem downNetworks_append_error (R : Runtime σ) (p : Project) (pre post : List String)
    (k : String) (w : World σ) (e : Error)
    (hpre : (downNetworks R p pre w).1 = .ok ())
    (hk : (downNetwork R p k (downNetworks R p pre w).2).1 = .error e) :
    downNetworks R p (pre ++ k :: post) w
      = (.error e, (downNetwork R p k (downNetworks R p pre w).2).2) := by
  induction pre generalizing w with
  | nil =>
    simp only [downNetworks] at hk
    simp only [List.nil_append, downNetworks]
    exact downNetworks_cons_error R p k post w e hk
  | cons x rest ih =>
    cases hx : (downNetwork R p x w).1 with
    | error err =>
      rw [downNetworks_cons_error R p x rest w err hx] at hpre
      cases hpre
    | ok u =>
      rw [downNetworks_cons_ok R p x rest w hx] at hpre hk
      rw [List.cons_append, downNetworks_cons_ok R p x (rest ++ k :: post) w hx,
        downNetworks_cons_ok R p x rest w hx]
      exact ih _ hpre hk

theorem downVolumes_append_error (R : Runtime σ) (p : Project) (pre post : List String)
    (k : String) (w : World σ) (e : Error)
    (hpre : (downVolumes R p pre w).1 = .ok ())
    (hk : (downVolume R p k (downVolumes R p pre w).2).1 = .error e) :
    downVolumes R p (pre ++ k :: post) w
      = (.error e, (downVolume R p k (downVolumes R p pre w).2).2) := by
  induction pre generalizing w with
  | nil =>
    simp only [downVolumes] at hk
    simp only [List.nil_append, downVolumes]
    exact downVolumes_cons_error R p k post w e hk
  | cons x rest ih =>
    cases hx : (downVolume R p x w).1 with
    | error err =>
      rw [downVolumes_cons_error R p x rest w err hx] at hpre
      cases hpre
    | ok u =>
      rw [downVolumes_cons_ok R p x rest w hx] at hpre hk
      rw [List.cons_append, downVolumes_cons_ok R p x (rest ++ k :: post) w hx,
        downVolumes_cons_ok R p x rest w hx]
      exact ih _ hpre hk

/-- C9: for a short name that is not a key of the network (volume) mapping,
`downNetwork` (`downVolume`) returns the invalid-name error and makes no call;
and when `downNetwork` (`downVolume`) returns an error for the short name `k`
visited after `pre` in the network (volume) pass of `Down`, `Down` returns that
error and stops right there: the names after `k` are not processed, and after a
failed network pass no volume is processed. -/
theorem structural_error_stops_pass (R : Runtime σ) (p : Project) (o : DownOptions)
    (netOrder volOrder : List String) (s : σ) (pre post : List String) (k : String)
    (w : World σ) (e : Error) :
    (p.Networks.lookup k = none →
      downNetwork R p k w = (.error (.invalidNetworkName k), w)) ∧
    (p.Volumes.lookup k = none →
      downVolume R p k w = (.error (.invalidVolumeName k), w)) ∧
    ((servicePhase R o s).1 = .ok () → netOrder = pre ++ k :: post →
      (downNetworks R p pre (servicePhase R o s).2).1 = .ok () →
      (downNetwork R p k (downNetworks R p pre (servicePhase R o s).2).2).1 = .error e →
      Down R p o netOrder volOrder s
        = (.error e, (downNetwork R p k (downNetworks R p pre (servicePhase R o s).2).2).2)) ∧
    ((servicePhase R o s).1 = .ok () →
      (downNetworks R p netOrder (servicePhase R o s).2).1 = .ok () →
      o.RemoveVolumes = true → volOrder = pre ++ k :: post →
      (downVolumes R p pre (downNetworks R p netOrder (servicePhase R o s).2).2).1 = .ok () →
      (downVolume R p k
        (downVolumes R p pre (downNetworks R p netOrder (servicePhase R o s).2).2).2).1
          = .error e →
      Down R p o netOrder volOrder s
        = (.error e, (downVolume R p k
            (downVolumes R p pre (downNetworks R p netOrder (servicePhase R o s).2).2).2).2)) := by
  refine ⟨downNetwork_unknown R p k w, downVolume_unknown R p k w, ?_, ?_⟩
  · intro hs hsplit hpre hk
    rw [Down_of_servicePhase_ok R p o netOrder volOrder s hs]
    have hloop := downNetworks_append_error R p pre post k _ e hpre hk
    rw [← hsplit] at hloop
    rw [downResources_networks_error R p o netOrder volOrder _ e (by rw [hloop]), hloop]
  · intro hs hnet hrv hsplit hpre hk
    rw [Down_of_servicePhase_ok R p o netOrder volOrder s hs,
      downResources_networks_ok R p o netOrder volOrder _ hnet]
    have hloop := downVolumes_append_error R p pre post k _ e hpre hk
    rw [← hsplit] at hloop
    simp only [hrv, if_true]
    exact hloop

/-- C9 at concrete inputs: the unknown name `ghost` is refused without a call,
and when the existence check for network `a` fails, `Down` stops after that
check: network `b` and volume `data` are not touched. -/
theorem structural_error_stops_pass_witness :
    downNetwork checkFailsRuntime twoNetworksProject "ghost" ⟨0, []⟩
      = (.error (.invalidNetworkName "ghost"), ⟨0, []⟩) ∧
    (Down checkFailsRuntime twoNetworksProject ⟨true⟩ ["a", "b"] ["data"] 0).1
      = .error (.collaborator "network inspect failed") ∧
    (Down checkFailsRuntime twoNetworksProject ⟨true⟩ ["a", "b"] ["data"] 0).2.trace
      = [Call.serviceNames,
          Call.containers "web", Call.containerInfo "web_1", Call.run ["rm", "-f", "-v", "web_1"],
          Call.containerInfo "web_2", Call.run ["rm", "-f", "-v", "web_2"],
          Call.containers "db", Call.containerInfo "db_1", Call.run ["rm", "-f", "-v", "db_1"],
          Call.networkExists "proj_a"] :=
  ⟨(structural_error_stops_pass checkFailsRuntime twoNetworksProject ⟨true⟩ ["a", "b"] ["data"]
      0 [] ["b"] "ghost" ⟨0, []⟩ (.collaborator "network inspect failed")).1 rfl,
    congrArg Prod.fst
      ((structural_error_stops_pass checkFailsRuntime twoNetworksProject ⟨true⟩ ["a", "b"]
        ["data"] 0 [] ["b"] "a" ⟨0, []⟩ (.collaborator "network inspect failed")).2.2.1
        rfl rfl rfl rfl),
    by decide⟩

/-! ## C7: a failed container lookup aborts the run -/

theorem downServices_lookup_failure (R : Runtime σ) (assign : String → List Container)
    (pre post : List String) (bad : String) (rv : Bool) (err : ExtErr)
    (hpre : ∀ svc ∈ pre, ∀ s, (R.Containers svc s).1 = .ok (assign svc))
    (hbad : ∀ s, (R.Containers bad s).1 = .error err) (w : World σ) :
    (downServices R (pre ++ bad :: post) rv w).1 = .error (.collaborator err) ∧
      (downServices R (pre ++ bad :: post) rv w).2.trace
        = w.trace ++ (serviceCalls rv assign pre ++ [Call.containers bad]) := by
  induction pre generalizing w with
  | nil =>
    rw [List.nil_append, downServices_cons_error R bad post rv w err (hbad w.state)]
    simp [callContainers, serviceCalls]
  | cons svc rest ih =>
    have h1 := hpre svc (List.mem_cons_self _ _) w.state
    have hrest : ∀ x ∈ rest, ∀ s, (R.Containers x s).1 = .ok (assign x) :=
      fun x hx => hpre x (List.mem_cons_of_mem _ hx)
    rw [List.cons_append, downServices_cons_ok R svc (rest ++ bad :: post) rv w _ h1]
    obtain ⟨ih1, ih2⟩ := ih hrest (downContainers R (assign svc) rv (callContainers R svc w).2).2
    refine ⟨ih1, ?_⟩
    rw [ih2, downContainers_trace]
    simp [serviceCalls, callContainers]

/-- C7: when the reversed service list is `pre ++ bad :: post`, the lookups of
the services in `pre` succeed and the lookup of `bad` fails with `err`, `Down`
returns `err`, and its calls are exactly: `ServiceNames`, the lookup and
container removals of each service of `pre`, and the failed lookup of `bad`.
No service of `post` is looked up, and no existence check or removal of a
network or volume is made.  `downContainers` itself never returns an error,
whatever the removal commands answer. -/
theorem lookup_failure_aborts_Down (R : Runtime σ) (p : Project) (o : DownOptions)
    (netOrder volOrder : List String) (s : σ) (names pre post : List String) (bad : String)
    (assign : String → List Container) (err : ExtErr)
    (hnames : (R.ServiceNames s).1 = .ok names)
    (hsplit : ReverseStrSlice names = pre ++ bad :: post)
    (hpre : ∀ svc ∈ pre, ∀ s', (R.Containers svc s').1 = .ok (assign svc))
    (hbad : ∀ s', (R.Containers bad s').1 = .error err) :
    (Down R p o netOrder volOrder s).1 = .error (.collaborator err) ∧
    (Down R p o netOrder volOrder s).2.trace
      = Call.serviceNames :: (serviceCalls o.RemoveVolumes assign pre ++ [Call.containers bad]) ∧
    removals (Down R p o netOrder volOrder s).2.trace
      = (pre.flatMap assign).map (fun c => containerRmArgs o.RemoveVolumes c.ID) ∧
    ∀ containers w, (downContainers R containers o.RemoveVolumes w).1 = .ok () := by
  obtain ⟨h1, h2⟩ := downServices_lookup_failure R assign pre post bad o.RemoveVolumes err
    hpre hbad (callServiceNames R ⟨s, []⟩).2
  rw [← hsplit] at h1 h2
  rw [Down_services_error R p o netOrder volOrder s names _ hnames h1]
  refine ⟨rfl, ?_, ?_, fun cs w => downContainers_ok R cs o.RemoveVolumes w⟩
  · rw [h2]
    simp [callServiceNames]
  · rw [h2, removals_append, removals_append, removals_serviceCalls]
    simp [callServiceNames, removals]

/-- C7 at services `[db, web]` with a failing lookup of `db`: `web` is torn
down, then `Down` stops with the lookup's error. -/
theorem lookup_failure_aborts_Down_witness :
    (lookupFailsRuntime.ServiceNames 0).1 = .ok ["db", "web"] ∧
    ReverseStrSlice ["db", "web"] = ["web"] ++ "db" :: [] ∧
    (Down lookupFailsRuntime webProject ⟨true⟩ ["default"] ["data"] 0).1
      = .error (.collaborator "cannot list db") ∧
    (Down lookupFailsRuntime webProject ⟨true⟩ ["default"] ["data"] 0).2.trace
      = [Call.serviceNames, Call.containers "web",
          Call.containerInfo "web_1", Call.run ["rm", "-f", "-v", "web_1"],
          Call.containerInfo "web_2", Call.run ["rm", "-f", "-v", "web_2"],
          Call.containers "db"] :=
  have h := lookup_failure_aborts_Down lookupFailsRuntime webProject ⟨true⟩ ["default"] ["data"]
    0 ["db", "web"] ["web"] [] "db" webContainers "cannot list db" rfl rfl
    (fun svc hsvc _ => by
      have hw : svc = "web" := by simpa using hsvc
      subst hw
      rfl)
    (fun _ => rfl)
  ⟨rfl, rfl, h.1, h.2.1.trans (by decide)⟩

/-! ## Runs in which every lookup and existence check succeeds -/

theorem Down_of_answers (R : Runtime σ) (p : Project) (o : DownOptions)
    (netOrder volOrder : List String) (s : σ) (A : Answers)
    (hnames : (R.ServiceNames s).1 = .ok A.services)
    (hlook : ∀ svc s', (R.Containers svc s').1 = .ok (A.containers svc))
    (hkn : ∀ k ∈ netOrder, p.Networks.lookup k ≠ none)
    (hnx : ∀ k ∈ netOrder, ∀ net, p.Networks.lookup k = some net →
      ∀ s', (R.NetworkExists net.Name s').1 = .ok (A.networkExists net.Name))
    (hkv : ∀ k ∈ volOrder, p.Volumes.lookup k ≠ none)
    (hvx : ∀ k ∈ volOrder, ∀ vol, p.Volumes.lookup k = some vol →
      ∀ s', (R.VolumeExists vol.Name s').1 = .ok (A.volumeExists vol.Name)) :
    (Down R p o netOrder volOrder s).1 = .ok () ∧
      (Down R p o netOrder volOrder s).2.trace = expectedCalls A p o netOrder volOrder := by
  obtain ⟨hs1, hs2⟩ := downServices_of_lookups R A.containers (ReverseStrSlice A.services)
    o.RemoveVolumes (fun svc _ => hlook svc) (callServiceNames R ⟨s, []⟩).2
  rw [Down_services_ok R p o netOrder volOrder s A.services hnames hs1]
  obtain ⟨hn1, hn2⟩ := downNetworks_of_answers R p A.networkExists netOrder hkn hnx
    (downServices R (ReverseStrSlice A.services) o.RemoveVolumes
      (callServiceNames R ⟨s, []⟩).2).2
  rw [downResources_networks_ok R p o netOrder volOrder _ hn1]
  cases hv : o.RemoveVolumes with
  | false =>
    simp only [Bool.false_eq_true, if_false]
    refine ⟨trivial, ?_⟩
    rw [hv] at hn2 hs2
    rw [hn2, hs2]
    simp [expectedCalls, callServiceNames, hv]
  | true =>
    simp only [if_true]
    rw [hv] at hn1 hn2 hs2
    obtain ⟨hv1, hv2⟩ := downVolumes_of_answers R p A.volumeExists volOrder hkv hvx
      (downNetworks R p netOrder (downServices R (ReverseStrSlice A.services) true
        (callServiceNames R ⟨s, []⟩).2).2).2
    refine ⟨hv1, ?_⟩
    rw [hv2, hn2, hs2]
    simp [expectedCalls, callServiceNames, hv]

theorem Down_of_Succeeds (R : Runtime σ) (p : Project) (o : DownOptions)
    (netOrder volOrder : List String) (s : σ) (A : Answers) (h : Succeeds R A s)
    (hnet : RangeOrder p.Networks netOrder) (hvol : RangeOrder p.Volumes volOrder) :
    (Down R p o netOrder volOrder s).1 = .ok () ∧
      (Down R p o netOrder volOrder s).2.trace = expectedCalls A p o netOrder volOrder :=
  Down_of_answers R p o netOrder volOrder s A h.1 h.2.1 hnet.lookup_ne_none
    (fun _ _ net _ => h.2.2.1 net.Name) hvol.lookup_ne_none (fun _ _ vol _ => h.2.2.2 vol.Name)

/-! ## Runs described by the answers they receive -/

theorem downServices_run (R : Runtime σ) (rv : Bool) (services : List String)
    (found : Nat → List Container) (w : World σ)
    (h : ∀ pre svc post, services = pre ++ svc :: post →
      (R.Containers svc (downServices R pre rv w).2.state).1 = .ok (found pre.length)) :
    (downServices R services rv w).1 = .ok () ∧
      (downServices R services rv w).2.trace = w.trace ++ serviceCallsRun rv found services := by
  induction services generalizing w found with
  | nil => simp [downServices, serviceCallsRun]
  | cons svc rest ih =>
    have h0 : (R.Containers svc w.state).1 = .ok (found 0) := h [] svc rest rfl
    have h' : ∀ pre svc' post, rest = pre ++ svc' :: post →
        (R.Containers svc' (downServices R pre rv
          (downContainers R (found 0) rv (callContainers R svc w).2).2).2.state).1
          = .ok (found (pre.length + 1)) := by
      intro pre svc' post hsplit
      have hh := h (svc :: pre) svc' post (by rw [hsplit]; rfl)
      rw [downServices_cons_ok R svc pre rv w (found 0) h0] at hh
      exact hh
    obtain ⟨ih1, ih2⟩ := ih (fun i => found (i + 1))
      (downContainers R (found 0) rv (callContainers R svc w).2).2 h'
    rw [downServices_cons_ok R svc rest rv w (found 0) h0]
    refine ⟨ih1, ?_⟩
    rw [ih2, downContainers_trace]
    simp [serviceCallsRun, callContainers]

theorem downNetworks_run (R : Runtime σ) (p : Project) (order : List String)
    (exists_ : Nat → Bool) (w : World σ)
    (hkeys : ∀ k ∈ order, p.Networks.lookup k ≠ none)
    (h : ∀ pre k post, order = pre ++ k :: post →
      ∀ net, p.Networks.lookup k = some net → net.External.External = false →
      (R.NetworkExists net.Name (downNetworks R p pre w).2.state).1 = .ok (exists_ pre.length)) :
    (downNetworks R p order w).1 = .ok () ∧
      (downNetworks R p order w).2.trace = w.trace ++ networkCallsRun p exists_ order := by
  induction order generalizing w exists_ with
  | nil => simp [downNetworks, networkCallsRun]
  | cons k rest ih =>
    have h0 : ∀ net, p.Networks.lookup k = some net → net.External.External = false →
        (R.NetworkExists net.Name w.state).1 = .ok (exists_ 0) := h [] k rest rfl
    have hk := hkeys k (List.mem_cons_self _ _)
    have key : (downNetwork R p k w).1 = .ok () ∧
        (downNetwork R p k w).2.trace = w.trace ++ networkCallsRun p exists_ [k] := by
      rcases downNetwork_cases R p k w with ⟨hl, _⟩ | ⟨net, hl, hx, hd⟩ |
        ⟨net, err, hl, hx, hr, _⟩ | ⟨net, hl, hx, hr, hd⟩ | ⟨net, hl, hx, hr, hd⟩
      · exact absurd hl hk
      · rw [hd]
        simp [networkCallsRun, hl, hx]
      · rw [h0 net hl hx] at hr
        cases hr
      · rw [h0 net hl hx] at hr
        have hb : exists_ 0 = false := by
          injection hr
        rw [hd]
        simp [networkCallsRun, hl, hx, hb, callNetworkExists]
      · rw [h0 net hl hx] at hr
        have hb : exists_ 0 = true := by
          injection hr
        rw [hd]
        simp [networkCallsRun, hl, hx, hb, callNetworkExists, callRun]
    obtain ⟨hok, htr⟩ := key
    have h' : ∀ pre k' post, rest = pre ++ k' :: post →
        ∀ net, p.Networks.lookup k' = some net → net.External.External = false →
        (R.NetworkExists net.Name (downNetworks R p pre (downNetwork R p k w).2).2.state).1
          = .ok (exists_ (pre.length + 1)) := by
      intro pre k' post hsplit net hl hx
      have hh := h (k :: pre) k' post (by rw [hsplit]; rfl) net hl hx
      rw [downNetworks_cons_ok R p k pre w hok] at hh
      exact hh
    obtain ⟨ih1, ih2⟩ := ih (fun i => exists_ (i + 1)) (downNetwork R p k w).2
      (fun x hx => hkeys x (List.mem_cons_of_mem _ hx)) h'
    rw [downNetworks_cons_ok R p k rest w hok]
    refine ⟨ih1, ?_⟩
    rw [ih2, htr]
    simp [networkCallsRun]

theorem networkCallsRun_const (p : Project) (c : Bool) (order : List String) :
    networkCallsRun p (fun _ => c) order = networkCalls p (fun _ => c) order := by
  induction order with
  | nil => rfl
  | cons k rest ih =>
    have hsplit : networkCalls p (fun _ => c) (k :: rest)
        = networkCalls p (fun _ => c) [k] ++ networkCalls p (fun _ => c) rest := by
      simp [networkCalls]
    rw [hsplit, networkCallsRun, ih]
    simp [networkCalls]

theorem downVolumes_run (R : Runtime σ) (p : Project) (order : List String)
    (exists_ : Nat → Bool) (w : World σ)
    (hkeys : ∀ k ∈ order, p.Volumes.lookup k ≠ none)
    (h : ∀ pre k post, order = pre ++ k :: post →
      ∀ vol, p.Volumes.lookup k = some vol → vol.External.External = false →
      (R.VolumeExists vol.Name (downVolumes R p pre w).2.state).1 = .ok (exists_ pre.length)) :
    (downVolumes R p order w).1 = .ok () ∧
      (downVolumes R p order w).2.trace = w.trace ++ volumeCallsRun p exists_ order := by
  induction order generalizing w exists_ with
  | nil => simp [downVolumes, volumeCallsRun]
  | cons k rest ih =>
    have h0 : ∀ vol, p.Volumes.lookup k = some vol → vol.External.External = false →
        (R.VolumeExists vol.Name w.state).1 = .ok (exists_ 0) := h [] k rest rfl
    have hk := hkeys k (List.mem_cons_self _ _)
    have key : (downVolume R p k w).1 = .ok () ∧
        (downVolume R p k w).2.trace = w.trace ++ volumeCallsRun p exists_ [k] := by
      rcases downVolume_cases R p k w with ⟨hl, _⟩ | ⟨vol, hl, hx, hd⟩ |
        ⟨vol, err, hl, hx, hr, _⟩ | ⟨vol, hl, hx, hr, hd⟩ | ⟨vol, hl, hx, hr, hd⟩
      · exact absurd hl hk
      · rw [hd]
        simp [volumeCallsRun, hl, hx]
      · rw [h0 vol hl hx] at hr
        cases hr
      · rw [h0 vol hl hx] at hr
        have hb : exists_ 0 = false := by
          injection hr
        rw [hd]
        simp [volumeCallsRun, hl, hx, hb, callVolumeExists]
      · rw [h0 vol hl hx] at hr
        have hb : exists_ 0 = true := by
          injection hr
        rw [hd]
        simp [volumeCallsRun, hl, hx, hb, callVolumeExists, callRun]
    obtain ⟨hok, htr⟩ := key
    have h' : ∀ pre k' post, rest = pre ++ k' :: post →
        ∀ vol, p.Volumes.lookup k' = some vol → vol.External.External = false →
        (R.VolumeExists vol.Name (downVolumes R p pre (downVolume R p k w).2).2.state).1
          = .ok (exists_ (pre.length + 1)) := by
      intro pre k' post hsplit vol hl hx
      have hh := h (k :: pre) k' post (by rw [hsplit]; rfl) vol hl hx
      rw [downVolumes_cons_ok R p k pre w hok] at hh
      exact hh
    obtain ⟨ih1, ih2⟩ := ih (fun i => exists_ (i + 1)) (downVolume R p k w).2
      (fun x hx => hkeys x (List.mem_cons_of_mem _ hx)) h'
    rw [downVolumes_cons_ok R p k rest w hok]
    refine ⟨ih1, ?_⟩
    rw [ih2, htr]
    simp [volumeCallsRun]

theorem volumeCallsRun_const (p : Project) (c : Bool) (order : List String) :
    volumeCallsRun p (fun _ => c) order = volumeCalls p (fun _ => c) order := by
  induction order with
  | nil => rfl
  | cons k rest ih =>
    have hsplit : volumeCalls p (fun _ => c) (k :: rest)
        = volumeCalls p (fun _ => c) [k] ++ volumeCalls p (fun _ => c) rest := by
      simp [volumeCalls]
    rw [hsplit, volumeCallsRun, ih]
    simp [volumeCalls]

theorem servicePhase_of_names (R : Runtime σ) (o : DownOptions) (s : σ) (names : List String)
    (h : (R.ServiceNames s).1 = .ok names) :
    servicePhase R o s
      = downServices R (ReverseStrSlice names) o.RemoveVolumes (callServiceNames R ⟨s, []⟩).2 := by
  have hc : callServiceNames R ⟨s, []⟩ = (.ok names, (callServiceNames R ⟨s, []⟩).2) := by
    simp [callServiceNames, h]
  rw [servicePhase, hc]

theorem Down_run (R : Runtime σ) (p : Project) (o : DownOptions)
    (netOrder volOrder : List String) (s : σ) (A : RunAnswers)
    (h : AnswersDuring R p o netOrder volOrder s A)
    (hkn : ∀ k ∈ netOrder, p.Networks.lookup k ≠ none)
    (hkv : ∀ k ∈ volOrder, p.Volumes.lookup k ≠ none) :
    (Down R p o netOrder volOrder s).1 = .ok () ∧
      (Down R p o netOrder volOrder s).2.trace = expectedRunCalls A p o netOrder volOrder := by
  obtain ⟨hnames, hfound, hnx, hvx⟩ := h
  rw [servicePhase_of_names R o s A.services hnames] at hnx hvx
  obtain ⟨hs1, hs2⟩ := downServices_run R o.RemoveVolumes (ReverseStrSlice A.services) A.found
    (callServiceNames R ⟨s, []⟩).2 hfound
  rw [Down_services_ok R p o netOrder volOrder s A.services hnames hs1]
  obtain ⟨hn1, hn2⟩ := downNetworks_run R p netOrder A.networkExists
    (downServices R (ReverseStrSlice A.services) o.RemoveVolumes
      (callServiceNames R ⟨s, []⟩).2).2 hkn hnx
  rw [downResources_networks_ok R p o netOrder volOrder _ hn1]
  cases hv : o.RemoveVolumes with
  | false =>
    simp only [Bool.false_eq_true, if_false]
    refine ⟨trivial, ?_⟩
    rw [hv] at hn2 hs2
    rw [hn2, hs2]
    simp [expectedRunCalls, callServiceNames, hv]
  | true =>
    simp only [if_true]
    have hvx' := hvx hv
    rw [hv] at hn1 hn2 hs2 hvx'
    obtain ⟨hv1, hv2⟩ := downVolumes_run R p volOrder A.volumeExists
      (downNetworks R p netOrder (downServices R (ReverseStrSlice A.services) true
        (callServiceNames R ⟨s, []⟩).2).2).2 hkv hvx'
    refine ⟨hv1, ?_⟩
    rw [hv2, hn2, hs2]
    simp [expectedRunCalls, callServiceNames, hv]

theorem removals_serviceCallsRun (rv : Bool) (found : Nat → List Container)
    (services : List String) :
    removals (serviceCallsRun rv found services)
      = ((List.range services.length).flatMap found).map fun c => containerRmArgs rv c.ID := by
  induction services generalizing found with
  | nil => rfl
  | cons svc rest ih =>
    have hsplit : serviceCallsRun rv found (svc :: rest)
        = [Call.containers svc] ++ (containerCalls rv (found 0)
          ++ serviceCallsRun rv (fun i => found (i + 1)) rest) := by
      simp [serviceCallsRun]
    rw [hsplit, removals_append, removals_append, ih, removals_containerCalls]
    simp [removals, List.range_succ_eq_map, List.flatMap_map, Function.comp_def]

/-! ## C5: best-effort continuation -/

theorem webProject_network (k : String) (net : NetworkConfig)
    (h : webProject.Networks.lookup k = some net) : net = ⟨"proj_default", ⟨false⟩⟩ := by
  by_cases hk : k = "default"
  · subst hk
    exact (Option.some.inj h).symm
  · have hb : (k == "default") = false := by simpa using hk
    simp [webProject, List.lookup, hb] at h

theorem webProject_volume (k : String) (vol : VolumeConfig)
    (h : webProject.Volumes.lookup k = some vol) : vol = ⟨"proj_data", ⟨false⟩⟩ := by
  by_cases hk : k = "data"
  · subst hk
    exact (Option.some.inj h).symm
  · have hb : (k == "data") = false := by simpa using hk
    simp [webProject, List.lookup, hb] at h

/-- On the set runtime, the run on the `[db, web]` project from `webExisting`
receives the answers `webRunAnswers`. -/
theorem webRun_set :
    AnswersDuring (setRuntime ["db", "web"]) webProject ⟨true⟩ ["default"] ["data"]
      webExisting webRunAnswers := by
  refine ⟨rfl, ?_, ?_, fun _ => ?_⟩
  · intro pre svc post h
    rcases pre with _ | ⟨a, _ | ⟨b, pre⟩⟩
    · simp [webRunAnswers, ReverseStrSlice] at h
      obtain ⟨rfl, -⟩ := h
      rfl
    · simp [webRunAnswers, ReverseStrSlice] at h
      obtain ⟨rfl, rfl, -⟩ := h
      rfl
    · simp [webRunAnswers, ReverseStrSlice] at h
  · intro pre k post h net hl _
    rcases pre with _ | ⟨a, pre⟩
    · simp at h
      obtain ⟨rfl, -⟩ := h
      rw [webProject_network _ net hl]
      rfl
    · simp at h
  · intro pre k post h vol hl _
    rcases pre with _ | ⟨a, pre⟩
    · simp at h
      obtain ⟨rfl, -⟩ := h
      rw [webProject_volume _ vol hl]
      rfl
    · simp at h

theorem removals_networkCalls_present (p : Project) (exists_ : String → Bool)
    (order : List String)
    (h : ∀ k ∈ order, ∀ net, p.Networks.lookup k = some net →
      net.External.External = false ∧ exists_ net.Name = true) :
    removals (networkCalls p exists_ order)
      = (order.filterMap fun k => p.Networks.lookup k).map fun net => ["network", "rm", net.Name] := by
  induction order with
  | nil => rfl
  | cons k rest ih =>
    have hrest := ih fun x hx => h x (List.mem_cons_of_mem _ hx)
    have hsplit : networkCalls p exists_ (k :: rest)
        = networkCalls p exists_ [k] ++ networkCalls p exists_ rest := by
      simp [networkCalls]
    rw [hsplit, removals_append, hrest]
    cases hl : p.Networks.lookup k with
    | none => simp [networkCalls, hl, removals]
    | some net =>
      obtain ⟨hx, hex⟩ := h k (List.mem_cons_self _ _) net hl
      simp [networkCalls, hl, hx, hex, removals]

theorem removals_networkCalls_absent (p : Project) (order : List String) :
    removals (networkCalls p (fun _ => false) order) = [] := by
  induction order with
  | nil => rfl
  | cons k rest ih =>
    have hsplit : networkCalls p (fun _ => false) (k :: rest)
        = networkCalls p (fun _ => false) [k] ++ networkCalls p (fun _ => false) rest := by
      simp [networkCalls]
    rw [hsplit, removals_append, ih]
    cases hl : p.Networks.lookup k with
    | none => simp [networkCalls, hl, removals]
    | some net =>
      cases hx : net.External.External <;> simp [networkCalls, hl, hx, removals]

theorem removals_volumeCalls_present (p : Project) (exists_ : String → Bool)
    (order : List String)
    (h : ∀ k ∈ order, ∀ vol, p.Volumes.lookup k = some vol →
      vol.External.External = false ∧ exists_ vol.Name = true) :
    removals (volumeCalls p exists_ order)
      = (order.filterMap fun k => p.Volumes.lookup k).map fun vol => ["volume", "rm", "-f", vol.Name] := by
  induction order with
  | nil => rfl
  | cons k rest ih =>
    have hrest := ih fun x hx => h x (List.mem_cons_of_mem _ hx)
    have hsplit : volumeCalls p exists_ (k :: rest)
        = volumeCalls p exists_ [k] ++ volumeCalls p exists_ rest := by
      simp [volumeCalls]
    rw [hsplit, removals_append, hrest]
    cases hl : p.Volumes.lookup k with
    | none => simp [volumeCalls, hl, removals]
    | some vol =>
      obtain ⟨hx, hex⟩ := h k (List.mem_cons_self _ _) vol hl
      simp [volumeCalls, hl, hx, hex, removals]

theorem removals_volumeCalls_absent (p : Project) (order : List String) :
    removals (volumeCalls p (fun _ => false) order) = [] := by
  induction order with
  | nil => rfl
  | cons k rest ih =>
    have hsplit : volumeCalls p (fun _ => false) (k :: rest)
        = volumeCalls p (fun _ => false) [k] ++ volumeCalls p (fun _ => false) rest := by
      simp [volumeCalls]
    rw [hsplit, removals_append, ih]
    cases hl : p.Volumes.lookup k with
    | none => simp [volumeCalls, hl, removals]
    | some vol =>
      cases hx : vol.External.External <;> simp [volumeCalls, hl, hx, removals]

/-- C2 as stated fails: on the set runtime, with the networks `a` and `b` both
named `shared`, nothing external, every declared network and volume existing
at the start and no lookup or check failing, `Down` returns no error but issues
a single `network rm shared` for the two declared networks. -/
theorem one_removal_for_two_networks :
    RangeOrder twinNetworksProject.Networks ["a", "b"] ∧
    RangeOrder twinNetworksProject.Volumes ["data"] ∧
    (∀ net ∈ declaredNetworks twinNetworksProject,
      net.External.External = false ∧ net.Name ∈ twinExisting.networks) ∧
    (∀ vol ∈ declaredVolumes twinNetworksProject,
      vol.External.External = false ∧ vol.Name ∈ twinExisting.volumes) ∧
    (∀ name s, ((setRuntime []).NetworkExists name s).1 = .ok (decide (name ∈ s.networks))) ∧
    (∀ name s, ((setRuntime []).VolumeExists name s).1 = .ok (decide (name ∈ s.volumes))) ∧
    ((declaredNetworks twinNetworksProject).map fun net => ["network", "rm", net.Name])
      = [["network", "rm", "shared"], ["network", "rm", "shared"]] ∧
    (Down (setRuntime []) twinNetworksProject ⟨true⟩ ["a", "b"] ["data"] twinExisting).1
      = .ok () ∧
    removals
        (Down (setRuntime []) twinNetworksProject ⟨true⟩ ["a", "b"] ["data"] twinExisting).2.trace
      = [["network", "rm", "shared"], ["volume", "rm", "-f", "proj_data"]] ∧
    ¬ ∃ conts nets vols,
      nets.Perm ((declaredNetworks twinNetworksProject).map fun net =>
        ["network", "rm", net.Name]) ∧
      vols.Perm ((declaredVolumes twinNetworksProject).map fun vol =>
        ["volume", "rm", "-f", vol.Name]) ∧
      removals (Down (setRuntime []) twinNetworksProject ⟨true⟩ ["a", "b"] ["data"]
        twinExisting).2.trace = conts ++ nets ++ vols := by
  refine ⟨by decide, by decide, by decide, by decide, fun _ _ => rfl, fun _ _ => rfl,
    by decide, rfl, by decide, ?_⟩
  rintro ⟨conts, nets, vols, hn, hv, h⟩
  have hlen := congrArg List.length h
  have e1 : (removals (Down (setRuntime []) twinNetworksProject ⟨true⟩ ["a", "b"] ["data"]
      twinExisting).2.trace).length = 2 := by decide
  have e2 := hn.length_eq
  have e3 := hv.length_eq
  have e4 : ((declaredNetworks twinNetworksProject).map fun net =>
      ["network", "rm", net.Name]).length = 2 := by decide
  have e5 : ((declaredVolumes twinNetworksProject).map fun vol =>
      ["volume", "rm", "-f", vol.Name]).length = 1 := by decide
  rw [e1, List.length_append, List.length_append, e2, e3, e4, e5] at hlen
  omega

/-- C2, amended: when the service list is obtained as `names`, the lookup of the
`i`-th service of the reversed list succeeds with `found i` in the state in
which the run makes it, no declared network or volume is external, and the
existence check of every visited network and volume answers true in the state
in which the run makes it, `Down` with `RemoveVolumes = true` returns no error,
and its removal commands are, in this order: the container removals
`rm -f -v ID` of the containers found, services in the reverse of the supplied
order, then one `network rm <full name>` per declared network, then one
`volume rm -f <full name>` per declared volume. -/
theorem Down_full_teardown_sequence (R : Runtime σ) (p : Project)
    (netOrder volOrder : List String) (s : σ) (names : List String)
    (found : Nat → List Container)
    (hnames : (R.ServiceNames s).1 = .ok names)
    (hlook : ∀ pre svc post, ReverseStrSlice names = pre ++ svc :: post →
      (R.Containers svc (downServices R pre true (callServiceNames R ⟨s, []⟩).2).2.state).1
        = .ok (found pre.length))
    (hnet : RangeOrder p.Networks netOrder) (hvol : RangeOrder p.Volumes volOrder)
    (hnext : ∀ k net, p.Networks.lookup k = some net → net.External.External = false)
    (hvext : ∀ k vol, p.Volumes.lookup k = some vol → vol.External.External = false)
    (hnx : ∀ pre k post, netOrder = pre ++ k :: post →
      ∀ net, p.Networks.lookup k = some net →
      (R.NetworkExists net.Name (downNetworks R p pre (servicePhase R ⟨true⟩ s).2).2.state).1
        = .ok true)
    (hvx : ∀ pre k post, volOrder = pre ++ k :: post →
      ∀ vol, p.Volumes.lookup k = some vol →
      (R.VolumeExists vol.Name
        (downVolumes R p pre (downNetworks R p netOrder (servicePhase R ⟨true⟩ s).2).2).2.state).1
        = .ok true) :
    (Down R p ⟨true⟩ netOrder volOrder s).1 = .ok () ∧
    ∃ nets vols,
      nets.Perm ((declaredNetworks p).map fun net => ["network", "rm", net.Name]) ∧
      vols.Perm ((declaredVolumes p).map fun vol => ["volume", "rm", "-f", vol.Name]) ∧
      removals (Down R p ⟨true⟩ netOrder volOrder s).2.trace
        = (((List.range names.length).flatMap found).map fun c => ["rm", "-f", "-v", c.ID])
          ++ nets ++ vols := by
  obtain ⟨h1, h2⟩ := Down_run R p ⟨true⟩ netOrder volOrder s
    ⟨names, found, fun _ => true, fun _ => true⟩
    ⟨hnames, hlook, fun pre k post hs net hl _ => hnx pre k post hs net hl,
      fun _ pre k post hs vol hl _ => hvx pre k post hs vol hl⟩
    hnet.lookup_ne_none hvol.lookup_ne_none
  refine ⟨h1, (netOrder.filterMap fun k => p.Networks.lookup k).map
      (fun net => ["network", "rm", net.Name]),
    (volOrder.filterMap fun k => p.Volumes.lookup k).map
      (fun vol => ["volume", "rm", "-f", vol.Name]),
    (List.Perm.filterMap _ hnet).map _, (List.Perm.filterMap _ hvol).map _, ?_⟩
  rw [h2]
  have e1 : expectedRunCalls ⟨names, found, fun _ => true, fun _ => true⟩ p ⟨true⟩
      netOrder volOrder
      = [Call.serviceNames] ++ (serviceCallsRun true found (ReverseStrSlice names) ++
          (networkCalls p (fun _ => true) netOrder ++ volumeCalls p (fun _ => true) volOrder)) := by
    simp [expectedRunCalls, networkCallsRun_const, volumeCallsRun_const]
  rw [e1, removals_append, removals_append, removals_append, removals_serviceCallsRun,
    removals_networkCalls_present p _ netOrder (fun k _ net hl => ⟨hnext k net hl, rfl⟩),
    removals_volumeCalls_present p _ volOrder (fun k _ vol hl => ⟨hvext k vol hl, rfl⟩)]
  simp [removals, ReverseStrSlice, containerRmArgs]

/-- C2, amended, on the scenario of the spec, run on the set runtime: services
`[db, web]`, network `default` with full name `proj_default`, volume `data`
with full name `proj_data`, all existing: the containers of `web`, those of
`db`, the network, the volume; no error. -/
theorem Down_full_teardown_sequence_witness :
    (Down (setRuntime ["db", "web"]) webProject ⟨true⟩ ["default"] ["data"] webExisting).1
      = .ok () ∧
    (∃ nets vols,
      nets.Perm ((declaredNetworks webProject).map fun net => ["network", "rm", net.Name]) ∧
      vols.Perm ((declaredVolumes webProject).map fun vol => ["volume", "rm", "-f", vol.Name]) ∧
      removals (Down (setRuntime ["db", "web"]) webProject ⟨true⟩ ["default"] ["data"]
          webExisting).2.trace
        = (((List.range ["db", "web"].length).flatMap webRunAnswers.found).map fun c =>
            ["rm", "-f", "-v", c.ID]) ++ nets ++ vols) ∧
    removals (Down (setRuntime ["db", "web"]) webProject ⟨true⟩ ["default"] ["data"]
        webExisting).2.trace
      = [["rm", "-f", "-v", "web_1"], ["rm", "-f", "-v", "web_2"], ["rm", "-f", "-v", "db_1"],
          ["network", "rm", "proj_default"], ["volume", "rm", "-f", "proj_data"]] :=
  have h := Down_full_teardown_sequence (setRuntime ["db", "web"]) webProject ["default"]
    ["data"] webExisting ["db", "web"] webRunAnswers.found rfl webRun_set.2.1
    (by decide) (by decide)
    (fun k net hl => by rw [webProject_network k net hl])
    (fun k vol hl => by rw [webProject_volume k vol hl])
    (fun pre k post hs net hl =>
      webRun_set.2.2.1 pre k post hs net hl (by rw [webProject_network k net hl]))
    (fun pre k post hs vol hl =>
      webRun_set.2.2.2 rfl pre k post hs vol hl (by rw [webProject_volume k vol hl]))
  ⟨h.1, h.2, by decide⟩

/-! ## C8: idempotence -/

theorem Down_nothing_left (R : Runtime σ) (p : Project) (o : DownOptions)
    (netOrder volOrder : List String) (s : σ) (names : List String)
    (hnames : (R.ServiceNames s).1 = .ok names)
    (hlook : ∀ svc s', (R.Containers svc s').1 = .ok [])
    (hne : ∀ name s', (R.NetworkExists name s').1 = .ok false)
    (hve : ∀ name s', (R.VolumeExists name s').1 = .ok false)
    (hnet : RangeOrder p.Networks netOrder) (hvol : RangeOrder p.Volumes volOrder) :
    (Down R p o netOrder volOrder s).1 = .ok () ∧
    removals (Down R p o netOrder volOrder s).2.trace = [] := by
  obtain ⟨h1, h2⟩ := Down_of_Succeeds R p o netOrder volOrder s
    ⟨names, fun _ => [], fun _ => false, fun _ => false⟩ ⟨hnames, hlook, hne, hve⟩ hnet hvol
  refine ⟨h1, ?_⟩
  rw [h2]
  have e1 : expectedCalls ⟨names, fun _ => [], fun _ => false, fun _ => false⟩ p o
      netOrder volOrder
      = [Call.serviceNames] ++ (serviceCalls o.RemoveVolumes (fun _ => [])
          (ReverseStrSlice names) ++ (networkCalls p (fun _ => false) netOrder ++
            (if o.RemoveVolumes then volumeCalls p (fun _ => false) volOrder else []))) := by
    simp [expectedCalls]
  rw [e1, removals_append, removals_append, removals_append, removals_serviceCalls,
    removals_networkCalls_absent]
  cases o.RemoveVolumes
  · simp [removals]
  · simp only [if_true, removals_volumeCalls_absent]
    simp [removals]

/-! ### Runs on the runtime made of sets -/

theorem Shrinks.refl (s : Existing) : Shrinks s s :=
  ⟨fun _ h => h, fun _ h => h, fun _ h => h⟩

theorem Shrinks.trans {a b c : Existing} (h1 : Shrinks a b) (h2 : Shrinks b c) : Shrinks a c :=
  ⟨fun x h => h1.1 x (h2.1 x h), fun x h => h1.2.1 x (h2.2.1 x h),
    fun x h => h1.2.2 x (h2.2.2 x h)⟩

theorem removeResource_shrinks (args : List String) (s : Existing) :
    Shrinks s (removeResource args s).2 := by
  unfold removeResource
  cases containerRemovalID args with
  | some id => exact ⟨fun c h => (List.mem_filter.1 h).1, fun _ h => h, fun _ h => h⟩
  | none =>
    by_cases h1 : isNetworkRemoval args = true
    · simp only [h1, if_true]
      exact ⟨fun _ h => h, fun c h => (List.mem_filter.1 h).1, fun _ h => h⟩
    · by_cases h2 : isVolumeRemoval args = true
      · simp only [h1, h2, if_true, if_false]
        exact ⟨fun _ h => h, fun _ h => h, fun c h => (List.mem_filter.1 h).1⟩
      · simp only [h1, h2, if_false]
        exact Shrinks.refl s

theorem removeResource_container (rv : Bool) (id : String) (s : Existing) :
    removeResource (containerRmArgs rv id) s
      = (none, { s with containers := s.containers.filter fun c => decide (c.2.ID ≠ id) }) := by
  simp [removeResource, containerRemovalID_containerRmArgs]

theorem removeResource_network (name : String) (s : Existing) :
    removeResource ["network", "rm", name] s
      = (none, { s with networks := s.networks.filter fun n => decide (n ≠ name) }) := by
  simp [removeResource, containerRemovalID, isNetworkRemoval]

theorem removeResource_volume (name : String) (s : Existing) :
    removeResource ["volume", "rm", "-f", name] s
      = (none, { s with volumes := s.volumes.filter fun v => decide (v ≠ name) }) := by
  simp [removeResource, containerRemovalID, isNetworkRemoval, isVolumeRemoval]

theorem set_downContainers (sv : List String) (cs : List Container) (rv : Bool)
    (w : World Existing) :
    Shrinks w.state (downContainers (setRuntime sv) cs rv w).2.state ∧
    ∀ c ∈ cs, ∀ x ∈ (downContainers (setRuntime sv) cs rv w).2.state.containers,
      x.2.ID ≠ c.ID := by
  induction cs generalizing w with
  | nil => exact ⟨Shrinks.refl _, by simp⟩
  | cons c rest ih =>
    simp only [downContainers]
    obtain ⟨b1, b2⟩ := ih (callRun (setRuntime sv) (containerRmArgs rv c.ID)
      (callContainerInfo (setRuntime sv) c w)).2
    have hstep : (callRun (setRuntime sv) (containerRmArgs rv c.ID)
        (callContainerInfo (setRuntime sv) c w)).2.state
        = { w.state with
            containers := w.state.containers.filter fun x => decide (x.2.ID ≠ c.ID) } := by
      simp [callRun, callContainerInfo, setRuntime, removeResource_container]
    have hshr : Shrinks w.state (callRun (setRuntime sv) (containerRmArgs rv c.ID)
        (callContainerInfo (setRuntime sv) c w)).2.state := by
      rw [hstep]
      exact ⟨fun x h => (List.mem_filter.1 h).1, fun _ h => h, fun _ h => h⟩
    refine ⟨hshr.trans b1, ?_⟩
    intro c' hc' x hx
    rcases List.mem_cons.1 hc' with hc' | hc'
    · subst hc'
      have hx1 := b1.1 x hx
      rw [hstep] at hx1
      simpa using (List.mem_filter.1 hx1).2
    · exact b2 c' hc' x hx

theorem set_downServices (sv : List String) (services : List String) (rv : Bool)
    (w : World Existing) :
    (downServices (setRuntime sv) services rv w).1 = .ok () ∧
    Shrinks w.state (downServices (setRuntime sv) services rv w).2.state ∧
    ∀ svc ∈ services, ∀ x ∈ (downServices (setRuntime sv) services rv w).2.state.containers,
      x.1 ≠ svc := by
  induction services generalizing w with
  | nil => exact ⟨rfl, Shrinks.refl _, by simp⟩
  | cons svc rest ih =>
    have hr : ((setRuntime sv).Containers svc w.state).1
        = .ok ((w.state.containers.filter fun c => decide (c.1 = svc)).map Prod.snd) := rfl
    rw [downServices_cons_ok (setRuntime sv) svc rest rv w _ hr]
    obtain ⟨a1, a2⟩ := set_downContainers sv
      ((w.state.containers.filter fun c => decide (c.1 = svc)).map Prod.snd) rv
      (callContainers (setRuntime sv) svc w).2
    obtain ⟨b1, b2, b3⟩ := ih (downContainers (setRuntime sv)
      ((w.state.containers.filter fun c => decide (c.1 = svc)).map Prod.snd) rv
      (callContainers (setRuntime sv) svc w).2).2
    have a1' : Shrinks w.state (downContainers (setRuntime sv)
        ((w.state.containers.filter fun c => decide (c.1 = svc)).map Prod.snd) rv
        (callContainers (setRuntime sv) svc w).2).2.state := a1
    refine ⟨b1, a1'.trans b2, ?_⟩
    intro svc' hsvc' x hx
    rcases List.mem_cons.1 hsvc' with hsvc' | hsvc'
    · subst hsvc'
      intro hxs
      have hx1 := b2.1 x hx
      have hx0 := a1'.1 x hx1
      have hmem : x.2 ∈ (w.state.containers.filter fun c => decide (c.1 = svc')).map Prod.snd :=
        List.mem_map.2 ⟨x, List.mem_filter.2 ⟨hx0, by simp [hxs]⟩, rfl⟩
      exact a2 x.2 hmem x hx1 rfl
    · exact b3 svc' hsvc' x hx

theorem set_downNetwork (sv : List String) (p : Project) (k : String) (w : World Existing) :
    Shrinks w.state (downNetwork (setRuntime sv) p k w).2.state ∧
    (∀ net, p.Networks.lookup k = some net → net.External.External = false →
      net.Name ∉ (downNetwork (setRuntime sv) p k w).2.state.networks) ∧
    (p.Networks.lookup k ≠ none → (downNetwork (setRuntime sv) p k w).1 = .ok ()) := by
  rcases downNetwork_cases (setRuntime sv) p k w with ⟨hl, hd⟩ | ⟨net, hl, hx, hd⟩ |
    ⟨net, err, hl, hx, hr, hd⟩ | ⟨net, hl, hx, hr, hd⟩ | ⟨net, hl, hx, hr, hd⟩
  · rw [hd]
    refine ⟨Shrinks.refl _, ?_, fun h => absurd hl h⟩
    intro net hl'
    rw [hl] at hl'
    cases hl'
  · rw [hd]
    refine ⟨Shrinks.refl _, ?_, fun _ => rfl⟩
    intro net' hl' hx'
    rw [hl] at hl'
    cases hl'
    rw [hx] at hx'
    cases hx'
  · simp [setRuntime] at hr
  · rw [hd]
    refine ⟨Shrinks.refl _, ?_, fun _ => rfl⟩
    intro net' hl' _
    rw [hl] at hl'
    cases hl'
    simpa [setRuntime, callNetworkExists] using hr
  · rw [hd]
    refine ⟨?_, ?_, fun _ => rfl⟩
    · exact removeResource_shrinks _ _
    · intro net' hl' _
      rw [hl] at hl'
      cases hl'
      simp [callRun, callNetworkExists, setRuntime, removeResource_network]

theorem set_downNetworks_shrinks (sv : List String) (p : Project) (order : List String)
    (w : World Existing) :
    Shrinks w.state (downNetworks (setRuntime sv) p order w).2.state := by
  induction order generalizing w with
  | nil => exact Shrinks.refl _
  | cons k rest ih =>
    cases hr : (downNetwork (setRuntime sv) p k w).1 with
    | error err =>
      rw [downNetworks_cons_error (setRuntime sv) p k rest w err hr]
      exact (set_downNetwork sv p k w).1
    | ok u =>
      rw [downNetworks_cons_ok (setRuntime sv) p k rest w hr]
      exact (set_downNetwork sv p k w).1.trans (ih _)

theorem set_downNetworks_gone (sv : List String) (p : Project) (order : List String)
    (w : World Existing) (hall : ∀ k ∈ order, p.Networks.lookup k ≠ none) :
    (downNetworks (setRuntime sv) p order w).1 = .ok () ∧
    ∀ k ∈ order, ∀ net, p.Networks.lookup k = some net → net.External.External = false →
      net.Name ∉ (downNetworks (setRuntime sv) p order w).2.state.networks := by
  induction order generalizing w with
  | nil => exact ⟨rfl, by simp⟩
  | cons k rest ih =>
    obtain ⟨_, a2, a3⟩ := set_downNetwork sv p k w
    have hr := a3 (hall k (List.mem_cons_self _ _))
    have b1 := set_downNetworks_shrinks sv p rest (downNetwork (setRuntime sv) p k w).2
    rw [downNetworks_cons_ok (setRuntime sv) p k rest w hr]
    obtain ⟨b2, b3⟩ := ih (downNetwork (setRuntime sv) p k w).2
      fun x hx => hall x (List.mem_cons_of_mem _ hx)
    refine ⟨b2, ?_⟩
    intro x hx net hl hext
    rcases List.mem_cons.1 hx with hx | hx
    · subst hx
      exact fun hmem => a2 net hl hext (b1.2.1 _ hmem)
    · exact b3 x hx net hl hext

theorem set_downVolume (sv : List String) (p : Project) (k : String) (w : World Existing) :
    Shrinks w.state (downVolume (setRuntime sv) p k w).2.state ∧
    (∀ vol, p.Volumes.lookup k = some vol → vol.External.External = false →
      vol.Name ∉ (downVolume (setRuntime sv) p k w).2.state.volumes) ∧
    (p.Volumes.lookup k ≠ none → (downVolume (setRuntime sv) p k w).1 = .ok ()) := by
  rcases downVolume_cases (setRuntime sv) p k w with ⟨hl, hd⟩ | ⟨vol, hl, hx, hd⟩ |
    ⟨vol, err, hl, hx, hr, hd⟩ | ⟨vol, hl, hx, hr, hd⟩ | ⟨vol, hl, hx, hr, hd⟩
  · rw [hd]
    refine ⟨Shrinks.refl _, ?_, fun h => absurd hl h⟩
    intro vol hl'
    rw [hl] at hl'
    cases hl'
  · rw [hd]
    refine ⟨Shrinks.refl _, ?_, fun _ => rfl⟩
    intro vol' hl' hx'
    rw [hl] at hl'
    cases hl'
    rw [hx] at hx'
    cases hx'
  · simp [setRuntime] at hr
  · rw [hd]
    refine ⟨Shrinks.refl _, ?_, fun _ => rfl⟩
    intro vol' hl' _
    rw [hl] at hl'
    cases hl'
    simpa [setRuntime, callVolumeExists] using hr
  · rw [hd]
    refine ⟨?_, ?_, fun _ => rfl⟩
    · exact removeResource_shrinks _ _
    · intro vol' hl' _
      rw [hl] at hl'
      cases hl'
      simp [callRun, callVolumeExists, setRuntime, removeResource_volume]

theorem set_downVolumes_shrinks (sv : List String) (p : Project) (order : List String)
    (w : World Existing) :
    Shrinks w.state (downVolumes (setRuntime sv) p order w).2.state := by
  induction order generalizing w with
  | nil => exact Shrinks.refl _
  | cons k rest ih =>
    cases hr : (downVolume (setRuntime sv) p k w).1 with
    | error err =>
      rw [downVolumes_cons_error (setRuntime sv) p k rest w err hr]
      exact (set_downVolume sv p k w).1
    | ok u =>
      rw [downVolumes_cons_ok (setRuntime sv) p k rest w hr]
      exact (set_downVolume sv p k w).1.trans (ih _)

theorem set_downVolumes_gone (sv : List String) (p : Project) (order : List String)
    (w : World Existing) (hall : ∀ k ∈ order, p.Volumes.lookup k ≠ none) :
    (downVolumes (setRuntime sv) p order w).1 = .ok () ∧
    ∀ k ∈ order, ∀ vol, p.Volumes.lookup k = some vol → vol.External.External = false →
      vol.Name ∉ (downVolumes (setRuntime sv) p order w).2.state.volumes := by
  induction order generalizing w with
  | nil => exact ⟨rfl, by simp⟩
  | cons k rest ih =>
    obtain ⟨_, a2, a3⟩ := set_downVolume sv p k w
    have hr := a3 (hall k (List.mem_cons_self _ _))
    have b1 := set_downVolumes_shrinks sv p rest (downVolume (setRuntime sv) p k w).2
    rw [downVolumes_cons_ok (setRuntime sv) p k rest w hr]
    obtain ⟨b2, b3⟩ := ih (downVolume (setRuntime sv) p k w).2
      fun x hx => hall x (List.mem_cons_of_mem _ hx)
    refine ⟨b2, ?_⟩
    intro x hx vol hl hext
    rcases List.mem_cons.1 hx with hx | hx
    · subst hx
      exact fun hmem => a2 vol hl hext (b1.2.2 _ hmem)
    · exact b3 x hx vol hl hext

theorem set_downServices_noop (sv : List String) (services : List String) (rv : Bool)
    (w : World Existing) (hgone : ∀ svc ∈ services, ∀ x ∈ w.state.containers, x.1 ≠ svc) :
    downServices (setRuntime sv) services rv w
      = (.ok (), ⟨w.state, w.trace ++ services.map Call.containers⟩) := by
  induction services generalizing w with
  | nil => simp [downServices]
  | cons svc rest ih =>
    have hnil : (w.state.containers.filter fun c => decide (c.1 = svc)) = [] := by
      rw [List.filter_eq_nil_iff]
      intro x hx
      simpa using hgone svc (List.mem_cons_self _ _) x hx
    have hr : ((setRuntime sv).Containers svc w.state).1 = .ok [] := by
      simp [setRuntime, hnil]
    have hw : (downContainers (setRuntime sv) [] rv (callContainers (setRuntime sv) svc w).2).2
        = ⟨w.state, w.trace ++ [Call.containers svc]⟩ := rfl
    rw [downServices_cons_ok (setRuntime sv) svc rest rv w [] hr, hw,
      ih ⟨w.state, w.trace ++ [Call.containers svc]⟩
        fun x hx => hgone x (List.mem_cons_of_mem _ hx)]
    simp

theorem set_downNetworks_noop (sv : List String) (p : Project) (order : List String)
    (w : World Existing) (hall : ∀ k ∈ order, p.Networks.lookup k ≠ none)
    (hgone : ∀ k ∈ order, ∀ net, p.Networks.lookup k = some net →
      net.External.External = false → net.Name ∉ w.state.networks) :
    downNetworks (setRuntime sv) p order w
      = (.ok (), ⟨w.state, w.trace ++ networkCalls p (fun _ => false) order⟩) := by
  induction order generalizing w with
  | nil => simp [downNetworks, networkCalls]
  | cons k rest ih =>
    have hall' : ∀ x ∈ rest, p.Networks.lookup x ≠ none :=
      fun x hx => hall x (List.mem_cons_of_mem _ hx)
    cases hl : p.Networks.lookup k with
    | none => exact absurd hl (hall k (List.mem_cons_self _ _))
    | some net =>
      cases hx : net.External.External with
      | true =>
        have hd := downNetwork_external (setRuntime sv) p k w net hl hx
        rw [downNetworks_cons_ok (setRuntime sv) p k rest w (by rw [hd]), hd,
          ih w hall' fun x hx' => hgone x (List.mem_cons_of_mem _ hx')]
        simp [networkCalls, hl, hx]
      | false =>
        have hnot := hgone k (List.mem_cons_self _ _) net hl hx
        have hr : ((setRuntime sv).NetworkExists net.Name w.state).1 = .ok false := by
          simp [setRuntime, hnot]
        have hd := downNetwork_absent (setRuntime sv) p k w net hl hx hr
        have hw : (callNetworkExists (setRuntime sv) net.Name w).2
            = ⟨w.state, w.trace ++ [Call.networkExists net.Name]⟩ := rfl
        rw [downNetworks_cons_ok (setRuntime sv) p k rest w (by rw [hd]), hd, hw,
          ih ⟨w.state, w.trace ++ [Call.networkExists net.Name]⟩ hall'
            fun x hx' => hgone x (List.mem_cons_of_mem _ hx')]
        simp [networkCalls, hl, hx]

theorem set_downVolumes_noop (sv : List String) (p : Project) (order : List String)
    (w : World Existing) (hall : ∀ k ∈ order, p.Volumes.lookup k ≠ none)
    (hgone : ∀ k ∈ order, ∀ vol, p.Volumes.lookup k = some vol →
      vol.External.External = false → vol.Name ∉ w.state.volumes) :
    downVolumes (setRuntime sv) p order w
      = (.ok (), ⟨w.state, w.trace ++ volumeCalls p (fun _ => false) order⟩) := by
  induction order generalizing w with
  | nil => simp [downVolumes, volumeCalls]
  | cons k rest ih =>
    have hall' : ∀ x ∈ rest, p.Volumes.lookup x ≠ none :=
      fun x hx => hall x (List.mem_cons_of_mem _ hx)
    cases hl : p.Volumes.lookup k with
    | none => exact absurd hl (hall k (List.mem_cons_self _ _))
    | some vol =>
      cases hx : vol.External.External with
      | true =>
        have hd := downVolume_external (setRuntime sv) p k w vol hl hx
        rw [downVolumes_cons_ok (setRuntime sv) p k rest w (by rw [hd]), hd,
          ih w hall' fun x hx' => hgone x (List.mem_cons_of_mem _ hx')]
        simp [volumeCalls, hl, hx]
      | false =>
        have hnot := hgone k (List.mem_cons_self _ _) vol hl hx
        have hr : ((setRuntime sv).VolumeExists vol.Name w.state).1 = .ok false := by
          simp [setRuntime, hnot]
        have hd := downVolume_absent (setRuntime sv) p k w vol hl hx hr
        have hw : (callVolumeExists (setRuntime sv) vol.Name w).2
            = ⟨w.state, w.trace ++ [Call.volumeExists vol.Name]⟩ := rfl
        rw [downVolumes_cons_ok (setRuntime sv) p k rest w (by rw [hd]), hd, hw,
          ih ⟨w.state, w.trace ++ [Call.volumeExists vol.Name]⟩ hall'
            fun x hx' => hgone x (List.mem_cons_of_mem _ hx')]
        simp [volumeCalls, hl, hx]

/-- What is left after a run of `Down` on the set runtime: no container of a
listed service, no declared non-external network, and, with `RemoveVolumes`, no
declared non-external volume. -/
theorem set_Down_first_run (sv : List String) (p : Project) (o : DownOptions)
    (netOrder volOrder : List String) (s : Existing)
    (hkn : ∀ k ∈ netOrder, p.Networks.lookup k ≠ none)
    (hkv : ∀ k ∈ volOrder, p.Volumes.lookup k ≠ none) :
    (∀ svc ∈ sv, ∀ x ∈ (Down (setRuntime sv) p o netOrder volOrder s).2.state.containers,
      x.1 ≠ svc) ∧
    (∀ k ∈ netOrder, ∀ net, p.Networks.lookup k = some net → net.External.External = false →
      net.Name ∉ (Down (setRuntime sv) p o netOrder volOrder s).2.state.networks) ∧
    (o.RemoveVolumes = true → ∀ k ∈ volOrder, ∀ vol, p.Volumes.lookup k = some vol →
      vol.External.External = false →
      vol.Name ∉ (Down (setRuntime sv) p o netOrder volOrder s).2.state.volumes) := by
  obtain ⟨a1, _, a3⟩ := set_downServices sv (ReverseStrSlice sv) o.RemoveVolumes
    (callServiceNames (setRuntime sv) ⟨s, []⟩).2
  have a3' : ∀ svc ∈ sv, ∀ x ∈ (downServices (setRuntime sv) (ReverseStrSlice sv)
      o.RemoveVolumes (callServiceNames (setRuntime sv) ⟨s, []⟩).2).2.state.containers,
      x.1 ≠ svc := fun svc hsvc => a3 svc (by simpa [ReverseStrSlice] using hsvc)
  rw [Down_services_ok (setRuntime sv) p o netOrder volOrder s sv rfl a1]
  generalize (downServices (setRuntime sv) (ReverseStrSlice sv) o.RemoveVolumes
    (callServiceNames (setRuntime sv) ⟨s, []⟩).2).2 = w1 at a3'
  have b1 := set_downNetworks_shrinks sv p netOrder w1
  obtain ⟨b2, b3⟩ := set_downNetworks_gone sv p netOrder w1 hkn
  rw [downResources_networks_ok (setRuntime sv) p o netOrder volOrder w1 b2]
  generalize (downNetworks (setRuntime sv) p netOrder w1).2 = w2 at b1 b3
  cases hv : o.RemoveVolumes with
  | false =>
    simp only [Bool.false_eq_true, if_false]
    exact ⟨fun svc hsvc x hx => a3' svc hsvc x (b1.1 x hx), b3, fun h => by cases h⟩
  | true =>
    simp only [if_true]
    have c1 := set_downVolumes_shrinks sv p volOrder w2
    obtain ⟨_, c3⟩ := set_downVolumes_gone sv p volOrder w2 hkv
    exact ⟨fun svc hsvc x hx => a3' svc hsvc x (b1.1 x (c1.1 x hx)),
      fun k hk net hl hx hmem => b3 k hk net hl hx (c1.2.1 _ hmem), fun _ => c3⟩

/-- On the set runtime, when nothing to tear down is left, `Down` returns no
error and runs no command. -/
theorem set_Down_noop (sv : List String) (p : Project) (o : DownOptions)
    (netOrder volOrder : List String) (s : Existing)
    (hkn : ∀ k ∈ netOrder, p.Networks.lookup k ≠ none)
    (hkv : ∀ k ∈ volOrder, p.Volumes.lookup k ≠ none)
    (hc : ∀ svc ∈ sv, ∀ x ∈ s.containers, x.1 ≠ svc)
    (hn : ∀ k ∈ netOrder, ∀ net, p.Networks.lookup k = some net →
      net.External.External = false → net.Name ∉ s.networks)
    (hv : o.RemoveVolumes = true → ∀ k ∈ volOrder, ∀ vol, p.Volumes.lookup k = some vol →
      vol.External.External = false → vol.Name ∉ s.volumes) :
    (Down (setRuntime sv) p o netOrder volOrder s).1 = .ok () ∧
    removals (Down (setRuntime sv) p o netOrder volOrder s).2.trace = [] := by
  have hs := set_downServices_noop sv (ReverseStrSlice sv) o.RemoveVolumes
    (callServiceNames (setRuntime sv) ⟨s, []⟩).2
    (fun svc hsvc x hx => hc svc (by simpa [ReverseStrSlice] using hsvc) x hx)
  rw [Down_services_ok (setRuntime sv) p o netOrder volOrder s sv rfl (by rw [hs]), hs]
  have hn' := set_downNetworks_noop sv p netOrder
    ⟨(callServiceNames (setRuntime sv) ⟨s, []⟩).2.state,
      (callServiceNames (setRuntime sv) ⟨s, []⟩).2.trace
        ++ (ReverseStrSlice sv).map Call.containers⟩ hkn hn
  rw [downResources_networks_ok (setRuntime sv) p o netOrder volOrder _ (by rw [hn']), hn']
  have hsvc : removals ((ReverseStrSlice sv).map Call.containers) = [] := by
    simp [removals]
  cases hrv : o.RemoveVolumes with
  | false =>
    simp only [Bool.false_eq_true, if_false]
    refine ⟨trivial, ?_⟩
    rw [removals_append, removals_append, removals_networkCalls_absent, hsvc]
    simp [callServiceNames, removals]
  | true =>
    simp only [if_true]
    have hv' := set_downVolumes_noop sv p volOrder
      ⟨(callServiceNames (setRuntime sv) ⟨s, []⟩).2.state,
        (callServiceNames (setRuntime sv) ⟨s, []⟩).2.trace
          ++ (ReverseStrSlice sv).map Call.containers
          ++ networkCalls p (fun _ => false) netOrder⟩ hkv (hv hrv)
    rw [hv']
    refine ⟨rfl, ?_⟩
    simp only []
    rw [removals_append, removals_append, removals_append, removals_networkCalls_absent,
      removals_volumeCalls_absent, hsvc]
    simp [callServiceNames, removals]

theorem set_Down_ok (sv : List String) (p : Project) (o : DownOptions)
    (netOrder volOrder : List String) (s : Existing)
    (hkn : ∀ k ∈ netOrder, p.Networks.lookup k ≠ none)
    (hkv : ∀ k ∈ volOrder, p.Volumes.lookup k ≠ none) :
    (Down (setRuntime sv) p o netOrder volOrder s).1 = .ok () := by
  obtain ⟨a1, _, _⟩ := set_downServices sv (ReverseStrSlice sv) o.RemoveVolumes
    (callServiceNames (setRuntime sv) ⟨s, []⟩).2
  rw [Down_services_ok (setRuntime sv) p o netOrder volOrder s sv rfl a1]
  obtain ⟨b2, _⟩ := set_downNetworks_gone sv p netOrder
    (downServices (setRuntime sv) (ReverseStrSlice sv) o.RemoveVolumes
      (callServiceNames (setRuntime sv) ⟨s, []⟩).2).2 hkn
  rw [downResources_networks_ok (setRuntime sv) p o netOrder volOrder _ b2]
  cases hv : o.RemoveVolumes with
  | false => simp
  | true =>
    simp only [if_true]
    exact (set_downVolumes_gone sv p volOrder _ hkv).1

/-- C8 as stated fails: every container lookup returns no containers and every
existence check answers false without error, yet `Down` returns an error,
because the service list cannot be obtained. -/
theorem Down_error_with_nothing_left :
    (∀ svc s, (noServiceListRuntime.Containers svc s).1 = .ok []) ∧
    (∀ name s, (noServiceListRuntime.NetworkExists name s).1 = .ok false) ∧
    (∀ name s, (noServiceListRuntime.VolumeExists name s).1 = .ok false) ∧
    RangeOrder webProject.Networks ["default"] ∧
    RangeOrder webProject.Volumes ["data"] ∧
    (Down noServiceListRuntime webProject ⟨false⟩ ["default"] ["data"] 0).1
      = .error (.collaborator "cannot order services") :=
  ⟨fun _ _ => rfl, fun _ _ => rfl, fun _ _ => rfl, by decide, by decide, rfl⟩

/-- C8, amended: (1) on the runtime made of the sets of existing containers,
networks and volumes, in which the service list is obtained and a removal
command succeeds and deletes the resource it names, a first run of `Down`
returns no error, and a second run on the same project and options, from the
state the first run left, returns no error and issues no removal command;
(2) for any collaborators, when the service list is obtained, every container
lookup returns no containers and every existence check answers false, `Down`
returns no error and issues no removal command, for either value of
`RemoveVolumes`. -/
theorem Down_idempotent (R : Runtime σ) (p : Project) (o : DownOptions)
    (netOrder volOrder netOrder' volOrder' : List String) (s : σ) (names sv : List String)
    (e : Existing)
    (hnet : RangeOrder p.Networks netOrder) (hvol : RangeOrder p.Volumes volOrder)
    (hnet' : RangeOrder p.Networks netOrder') (hvol' : RangeOrder p.Volumes volOrder') :
    ((Down (setRuntime sv) p o netOrder volOrder e).1 = .ok () ∧
      (Down (setRuntime sv) p o netOrder' volOrder'
        (Down (setRuntime sv) p o netOrder volOrder e).2.state).1 = .ok () ∧
      removals (Down (setRuntime sv) p o netOrder' volOrder'
        (Down (setRuntime sv) p o netOrder volOrder e).2.state).2.trace = []) ∧
    ((R.ServiceNames s).1 = .ok names →
      (∀ svc s', (R.Containers svc s').1 = .ok []) →
      (∀ name s', (R.NetworkExists name s').1 = .ok false) →
      (∀ name s', (R.VolumeExists name s').1 = .ok false) →
      (Down R p o netOrder volOrder s).1 = .ok () ∧
        removals (Down R p o netOrder volOrder s).2.trace = []) := by
  refine ⟨?_, fun hnames hlook hne hve =>
    Down_nothing_left R p o netOrder volOrder s names hnames hlook hne hve hnet hvol⟩
  obtain ⟨f1, f2, f3⟩ := set_Down_first_run sv p o netOrder volOrder e
    hnet.lookup_ne_none hvol.lookup_ne_none
  have hmemn : ∀ k ∈ netOrder', k ∈ netOrder := fun k hk =>
    (List.Perm.mem_iff hnet).2 ((List.Perm.mem_iff hnet').1 hk)
  have hmemv : ∀ k ∈ volOrder', k ∈ volOrder := fun k hk =>
    (List.Perm.mem_iff hvol).2 ((List.Perm.mem_iff hvol').1 hk)
  obtain ⟨g1, g2⟩ := set_Down_noop sv p o netOrder' volOrder'
    (Down (setRuntime sv) p o netOrder volOrder e).2.state
    hnet'.lookup_ne_none hvol'.lookup_ne_none f1
    (fun k hk => f2 k (hmemn k hk)) (fun hrv k hk => f3 hrv k (hmemv k hk))
  exact ⟨set_Down_ok sv p o netOrder volOrder e hnet.lookup_ne_none hvol.lookup_ne_none,
    g1, g2⟩

/-- C8, amended, on the `[db, web]` project: the first run removes three containers, the
network and the volume; the second run only looks up and checks. -/
theorem Down_idempotent_witness :
    RangeOrder webProject.Networks ["default"] ∧ RangeOrder webProject.Volumes ["data"] ∧
    removals (Down (setRuntime ["db", "web"]) webProject ⟨true⟩ ["default"] ["data"]
        webExisting).2.trace
      = [["rm", "-f", "-v", "web_1"], ["rm", "-f", "-v", "web_2"], ["rm", "-f", "-v", "db_1"],
          ["network", "rm", "proj_default"], ["volume", "rm", "-f", "proj_data"]] ∧
    (Down (setRuntime ["db", "web"]) webProject ⟨true⟩ ["default"] ["data"]
        webExisting).2.state = ⟨[("cache", ⟨"cache_1"⟩)], ["bridge"], ["scratch"]⟩ ∧
    ((Down (setRuntime ["db", "web"]) webProject ⟨true⟩ ["default"] ["data"] webExisting).1
        = .ok () ∧
      (Down (setRuntime ["db", "web"]) webProject ⟨true⟩ ["default"] ["data"]
        (Down (setRuntime ["db", "web"]) webProject ⟨true⟩ ["default"] ["data"]
          webExisting).2.state).1 = .ok () ∧
      removals (Down (setRuntime ["db", "web"]) webProject ⟨true⟩ ["default"] ["data"]
        (Down (setRuntime ["db", "web"]) webProject ⟨true⟩ ["default"] ["data"]
          webExisting).2.state).2.trace = []) ∧
    (goneRuntime.ServiceNames 0).1 = .ok ["db", "web"] ∧
    (∀ svc s', (goneRuntime.Containers svc s').1 = .ok []) ∧
    (∀ name s', (goneRuntime.NetworkExists name s').1 = .ok false) ∧
    (∀ name s', (goneRuntime.VolumeExists name s').1 = .ok false) ∧
    (Down goneRuntime webProject ⟨true⟩ ["default"] ["data"] 0).1 = .ok () ∧
    removals (Down goneRuntime webProject ⟨true⟩ ["default"] ["data"] 0).2.trace = [] :=
  have h := Down_idempotent goneRuntime webProject ⟨true⟩ ["default"] ["data"] ["default"]
    ["data"] 0 ["db", "web"] ["db", "web"] webExisting (by decide) (by decide) (by decide)
    (by decide)
  ⟨by decide, by decide, by decide, by decide, h.1, rfl, fun _ _ => rfl, fun _ _ => rfl,
    fun _ _ => rfl, h.2 rfl (fun _ _ => rfl) (fun _ _ => rfl) (fun _ _ => rfl)⟩

end Composer
